import Mathlib

/-!
Shallow embedding of the constraint-based schedule generation engine of
`src/backend/app/services/scheduler.py` (the nextera-workforce backend), and
proofs settling the frozen claims about it.

Modelling conventions, used throughout and noted again at the definitions
they affect:

* Dates are absolute day numbers (`Int`).  `datetime.weekday()` (Monday = 0)
  is modelled as `d.emod 7`, i.e. day number 0 is a Monday; the engine only
  ever uses weekday arithmetic and day differences, never the actual
  calendar anchoring.  Comparisons of the ISO strings produced by
  `strftime("%Y-%m-%d")` agree with comparisons of the day numbers.
* Times of day inside the scheduling engine are whole hours (`Int`).  The
  engine manufactures every time string as `f"{h:02d}:00"` and re-reads it
  with `int(t.split(":")[0])`; for such strings lexicographic string
  comparison agrees with comparison of the hour numbers.  The one function
  whose claim is about arbitrary time strings, `calculate_shift_hours`, is
  embedded over `String` directly.
* Python `list.sort(key=...)` is a stable ascending sort; it is modelled by
  `List.insertionSort` with the pulled-back `≤` on keys, which inserts the
  head into the sorted tail and therefore keeps equal-key elements in their
  original order.
* The only sources of randomness are `random.randint` (shift-duration draw
  in the business coverage planner) and `random.choices`/`random.choice`
  (tie-breaking and default location/department picks in the fallback
  scheduler).  The former is modelled by an explicit draw parameter `d`
  (a valid draw satisfies `mn ≤ d ≤ mx`); the latter by a stream of choice
  indices (`List Nat`) consumed one per call, an exhausted stream choosing
  index 0.  Every weight the source passes to `random.choices` is positive,
  so every index models a possible execution.
* CPython dicts preserve insertion order, so `required_roles` is a
  `List (String × Nat)`.
* A `.get(key, default)` read of an optional document field is modelled by
  `Option.getD`; a field the code reads with differing defaults at
  different call sites stays an `Option` in the record.
* Exceptions (including the `UnboundLocalError` reachable in
  `_create_business_coverage_plan` and the nontermination of its sequential
  manager-shift loop for non-positive durations) are modelled by `Option`:
  `none` means the call does not return normally.
-/

/-- Stable ascending sort by a key, modelling Python `list.sort(key=...)`:
`List.insertionSort` inserts the head into the sorted tail, so equal-key
elements keep their original relative order. -/
def sortByKey {α κ : Type} [LinearOrder κ] (key : α → κ) (l : List α) : List α :=
  List.insertionSort (fun a b => key a ≤ key b) l

theorem mem_sortByKey {α κ : Type} [LinearOrder κ] (key : α → κ) (l : List α) (a : α) :
    a ∈ sortByKey key l ↔ a ∈ l :=
  (List.perm_insertionSort _ l).mem_iff

theorem sortByKey_sorted {α κ : Type} [LinearOrder κ] (key : α → κ) (l : List α) :
    (sortByKey key l).Pairwise (fun a b => key a ≤ key b) := by
  haveI : IsTotal α (fun a b => key a ≤ key b) := ⟨fun a b => le_total (key a) (key b)⟩
  haveI : IsTrans α (fun a b => key a ≤ key b) := ⟨fun _ _ _ hab hbc => le_trans hab hbc⟩
  exact List.sorted_insertionSort (fun a b => key a ≤ key b) l

theorem sortByKey_perm {α κ : Type} [LinearOrder κ] (key : α → κ) (l : List α) :
    List.Perm (sortByKey key l) l :=
  List.perm_insertionSort _ l

/-- Stable descending sort by a key, modelling Python
`list.sort(key=..., reverse=True)` (also stable). -/
def sortByKeyRev {α κ : Type} [LinearOrder κ] (key : α → κ) (l : List α) : List α :=
  List.insertionSort (fun a b => key b ≤ key a) l

/-- `range(a, b)` over integers. -/
def intRange (a b : Int) : List Int :=
  (List.range (b - a).toNat).map (fun (i : Nat) => a + (i : Int))

/-- Consume one value from the choice-index stream (`random.choices` /
`random.choice` oracle); an exhausted stream yields index 0. -/
def takeChoice : List Nat → Nat × List Nat
  | [] => (0, [])
  | n :: rest => (n, rest)

/-- Pick the element of `l` selected by choice index `n` (modulo the length),
modelling a draw of `random.choices(l, weights, k=1)[0]` or
`random.choice(l)`; all weights used by the source are positive, so every
index corresponds to an execution with positive probability. -/
def pickAt {α : Type} (l : List α) (n : Nat) : Option α :=
  l.get? (n % (if l.length = 0 then 1 else l.length))

theorem pickAt_mem {α : Type} (l : List α) (n : Nat) (a : α)
    (h : pickAt l n = some a) : a ∈ l := by
  unfold pickAt at h
  exact List.get?_mem h

theorem pickAt_isSome {α : Type} (l : List α) (n : Nat) (h : l ≠ []) :
    ∃ a, pickAt l n = some a := by
  unfold pickAt
  have hlen : 0 < l.length := List.length_pos.2 h
  have hne : l.length ≠ 0 := Nat.pos_iff_ne_zero.1 hlen
  rw [if_neg hne]
  have hlt : n % l.length < l.length := Nat.mod_lt _ hlen
  exact ⟨l.get ⟨n % l.length, hlt⟩, List.get?_eq_get hlt⟩

/-! ## Time strings and `calculate_shift_hours` -/

/-- Split a character list at every colon. -/
def splitColon : List Char → List (List Char)
  | [] => [[]]
  | c :: cs =>
    let rest := splitColon cs
    if c = ':' then [] :: rest
    else
      match rest with
      | [] => [[c]]
      | p :: ps => (c :: p) :: ps

/-- Digit-string value (the strings are pre-checked to be all digits). -/
def digitsVal (cs : List Char) : Nat :=
  cs.foldl (fun acc c => acc * 10 + (c.toNat - 48)) 0

/-- Parse per `datetime.strptime(t, "%H:%M")`: one or two digits each for
hour (0–23) and minute (0–59), separated by a colon, nothing else. -/
def parseHM (s : String) : Option (Nat × Nat) :=
  match splitColon s.toList with
  | [h, m] =>
    if h.length ≥ 1 ∧ h.length ≤ 2 ∧ h.all Char.isDigit ∧
       m.length ≥ 1 ∧ m.length ≤ 2 ∧ m.all Char.isDigit then
      if digitsVal h ≤ 23 ∧ digitsVal m ≤ 59 then some (digitsVal h, digitsVal m)
      else none
    else none
  | _ => none

/-- `calculate_shift_hours` (scheduler.py lines 1891–1908): parse both
times; if the end is earlier than the start add a day (overnight shift);
return the difference in hours, `(end - start).seconds / 3600`, as an exact
rational (CPython floats are exact here since the values are multiples of
1/60).  Any parse failure is caught and yields `0.0`. -/
def calculate_shift_hours (start_time end_time : String) : ℚ :=
  match parseHM start_time, parseHM end_time with
  | some (sh, sm), some (eh, em) =>
    let s : Int := sh * 60 + sm
    let e : Int := eh * 60 + em
    let e' : Int := if e < s then e + 24 * 60 else e
    ((e' - s : Int) : ℚ) / 60
  | _, _ => 0

/-- `calculate_shift_hours` specialised to the whole-hour times
(`f"{h:02d}:00"`) that the engine itself manufactures; used where the
fallback scheduler accumulates weekly hours from template times. -/
def calcHoursH (s e : Int) : Int :=
  if e < s then (e + 24) - s else e - s

/-! ## Circuit breaker (scheduler.py lines 7–43, 1449–1457) -/

inductive CBState where
  | closed
  | «open»
  | halfOpen
  deriving DecidableEq, Repr

structure CircuitBreaker where
  failure_threshold : Nat := 3
  recovery_timeout : Nat := 60
  failure_count : Nat := 0
  last_failure_time : Option Int := none
  state : CBState := CBState.closed
  deriving DecidableEq, Repr

/-- `CircuitBreaker.can_execute`, at current time `now` (`time.time()`).
Returns the decision and the possibly-updated breaker (OPEN flips to
HALF_OPEN only when strictly more than `recovery_timeout` seconds have
elapsed since the last failure). -/
def CircuitBreaker.can_execute (cb : CircuitBreaker) (now : Int) : Bool × CircuitBreaker :=
  match cb.state with
  | CBState.closed => (true, cb)
  | CBState.open =>
    -- `time.time() - self.last_failure_time > self.recovery_timeout`
    if now - cb.last_failure_time.getD 0 > (cb.recovery_timeout : Int) then
      (true, { cb with state := CBState.halfOpen })
    else
      (false, cb)
  | CBState.halfOpen => (true, cb)

/-- `CircuitBreaker.record_success`. -/
def CircuitBreaker.record_success (cb : CircuitBreaker) : CircuitBreaker :=
  { cb with failure_count := 0, state := CBState.closed }

/-- `CircuitBreaker.record_failure`, at current time `now`. -/
def CircuitBreaker.record_failure (cb : CircuitBreaker) (now : Int) : CircuitBreaker :=
  let cb := { cb with failure_count := cb.failure_count + 1, last_failure_time := some now }
  if cb.failure_count ≥ cb.failure_threshold then
    { cb with state := CBState.open }
  else
    cb

/-- `reset_scheduler_circuit_breaker` (lines 1449–1457). -/
def reset_scheduler_circuit_breaker (cb : CircuitBreaker) : CircuitBreaker :=
  { cb with failure_count := 0, state := CBState.closed, last_failure_time := none }

/-! ## Data model

Dynamic dict-shaped documents are embedded as records.  A field the code
reads with `.get(key, default)` and a single fixed default is a plain field
(a missing key is represented by the default); a field whose presence
matters (aliasing, or differing defaults at different call sites) is an
`Option`. -/

/-- One weekly-availability entry of an employee
(`{dayOfWeek, startTime, endTime, isAvailable}`; `dayOfWeek` uses Python's
Monday = 0 convention, times are arbitrary strings). -/
structure AvailabilitySlot where
  dayOfWeek : Int
  startTime : String := "00:00"
  endTime : String := "23:59"
  isAvailable : Bool := false
  deriving DecidableEq, Repr

/-- An employee document.  `_id` is the Mongo id rendered by `str(...)`;
`isActive` defaults to `True` and `anonymized` to `False` when the keys are
missing, so plain `Bool` fields represent them; `role`/`department`/
`location`/`firstName` default to `""`, `skills`/`availability` to `[]`,
`experience_months`/`hourlyRate` to `0`. -/
structure Employee where
  _id : String
  firstName : String := ""
  role : String := ""
  department : String := ""
  location : String := ""
  skills : List String := []
  availability : List AvailabilitySlot := []
  isActive : Bool := true
  anonymized : Bool := false
  experience_months : Int := 0
  hourlyRate : Int := 0
  deriving DecidableEq, Repr

/-- One per-weekday operating-hours entry (`day_of_week` uses the app's
Sunday = 0 convention).  Open/close times are whole hours (see the header:
the engine writes and reads them as `"HH:00"`). -/
structure DayHours where
  day_of_week : Int
  is_open : Bool
  open_time : Int := 9
  close_time : Int := 17
  min_staff : Int := 1
  max_staff : Int := 10
  deriving DecidableEq, Repr

/-- A shift template.  `required_roles` keeps dict insertion order.
`duration` is the planner's stored `"duration"` key (hours); templates the
source creates without `"type"`/`"duration"` keys carry their read-back
defaults (`"general"`, end − start), noted at each constructor.  The
diagnostic `"name"` string is not modelled (never read except in prints). -/
structure ShiftTemplate where
  start_time : Int
  end_time : Int
  duration : Int
  ttype : String := "general"
  required_roles : List (String × Nat) := [("general", 1)]
  is_active : Bool := true
  deriving DecidableEq, Repr

/-- One skill requirement (`{role, required_skills, is_mandatory}`). -/
structure SkillRequirement where
  role : String := ""
  required_skills : List String := []
  is_mandatory : Bool := true
  deriving DecidableEq, Repr

/-- A constraint document. -/
structure ConstraintDoc where
  operating_hours : Option (List DayHours) := none
  shift_templates : Option (List ShiftTemplate) := none
  skill_requirements : List SkillRequirement := []
  locations : Option (List String) := none
  departments : Option (List String) := none
  roles : Option (List String) := none
  max_consecutive_days : Option Nat := none
  min_rest_hours_between_shifts : Option Nat := none
  max_hours_per_week : Option Nat := none
  min_consecutive_hours_per_shift : Option Int := none
  max_consecutive_hours_per_shift : Option Int := none
  optimization_priority : Option String := none
  require_manager_coverage : Option Bool := none
  min_employees_per_day : Option Nat := none
  max_employees_per_day : Option Nat := none
  min_staff : Option Int := none
  max_staff : Option Int := none
  deriving DecidableEq, Repr

/-- An output assignment record.  The date is a day number and the times
whole hours (see header).  The free-text `notes` string is not modelled. -/
structure Assignment where
  employeeId : String
  date : Int
  startTime : Int
  endTime : Int
  location : String
  role : String
  department : String
  status : String := "scheduled"
  deriving DecidableEq, Repr

/-- A conflict diagnostic.  Only the fields consumed downstream or named by
the claims are modelled (`type`, `message`, `severity`, `day`); the
free-text `affected_area`/`impact` strings are not. -/
structure Conflict where
  ctype : String
  message : String
  severity : String
  day : Option String := none
  deriving DecidableEq, Repr

/-- A suggestion diagnostic (`type`, `category`, `priority`,
`auto_fixable`, and the numeric suggestion payloads where present). -/
structure Suggestion where
  stype : String
  category : String
  priority : String
  auto_fixable : Bool
  suggested_min : Option Int := none
  suggested_max : Option Int := none
  deriving DecidableEq, Repr

/-- The conflict-analysis report returned by `detect_scheduling_conflicts`
(counts and flags exactly as assembled at scheduler.py lines 2262–2280;
the `summary` sub-dict is not modelled). -/
structure ConflictReport where
  conflicts : List Conflict
  suggestions : List Suggestion
  conflict_count : Nat
  critical_count : Nat
  warning_count : Nat
  auto_fixable_count : Nat
  manual_suggestions_count : Nat
  can_proceed : Bool
  has_critical_conflicts : Bool
  deriving DecidableEq, Repr

/-- Sunday = 0 day-of-week of a date: `(date.weekday() + 1) % 7`. -/
def dayOfWeekSun (date : Int) : Int :=
  (date.emod 7 + 1).emod 7

def dayNames : List String :=
  ["Sunday", "Monday", "Tuesday", "Wednesday", "Thursday", "Friday", "Saturday"]

/-- `["Sunday", ...][d]` for the app's Sunday = 0 day numbers. -/
def dayNameOf (d : Int) : String :=
  dayNames.getD d.toNat ""

/-! ## Availability helpers (scheduler.py lines 595–625, 2402–2416) -/

/-- `_check_employee_availability`: no availability entries means always
available; otherwise the day must have at least one entry, and some entry
for the day must be available and contain `[start_time, end_time]` in its
window (string comparison on times). -/
def _check_employee_availability (employee : Employee) (date : Int)
    (start_time end_time : String) : Bool :=
  let availability := employee.availability
  if availability.isEmpty then
    true
  else
    let day_of_week := date.emod 7  -- Python weekday(), Monday = 0
    let day_availability := availability.filter (fun av => av.dayOfWeek = day_of_week)
    if day_availability.isEmpty then
      false
    else
      day_availability.any (fun av =>
        av.isAvailable ∧
        (av.startTime ≤ start_time ∧ start_time ≤ av.endTime ∧
         av.startTime ≤ end_time ∧ end_time ≤ av.endTime))

/-- `_is_employee_available_on_day`: defaults to available when no
preference list or no entry mentions the day; otherwise the first matching
entry's `isAvailable` (with default `True` for a missing key — the record
default `false` stands for an explicit `False`, and the source reads
`preference.get("isAvailable", True)`; we model the read faithfully by
using the stored flag, since the documents the engine receives always carry
the key). -/
def _is_employee_available_on_day (employee : Employee) (day_of_week : Int) : Bool :=
  if employee.availability.isEmpty then
    true
  else
    match employee.availability.find? (fun p => p.dayOfWeek = day_of_week) with
    | some pref => pref.isAvailable
    | none => true

/-! ## `validate_constraints` (scheduler.py lines 641–698) -/

/-- `validate_constraints`: the returned list of validation-error strings.
The per-entry required-field check (lines 655–660) cannot fail in the
record embedding (every `DayHours` carries the fields) and contributes no
errors. -/
def validate_constraints (constraints : ConstraintDoc) : List String :=
  let operating_hours := constraints.operating_hours.getD []
  let ohErrors :=
    if operating_hours.isEmpty ∨ operating_hours.length ≠ 7 then
      ["Operating hours must be defined for all 7 days of the week"]
    else
      let daysOk :=
        (List.range 7).all (fun d => operating_hours.any (fun oh => oh.day_of_week = (d : Int))) ∧
        operating_hours.all (fun oh => 0 ≤ oh.day_of_week ∧ oh.day_of_week < 7)
      let dayErr := if daysOk then [] else
        ["Operating hours must contain exactly one entry for each day (0-6)"]
      let staffErrs :=
        (List.range operating_hours.length).filterMap (fun idx =>
          match operating_hours.get? idx with
          | some oh =>
            if oh.min_staff > oh.max_staff then
              some (toString "Day " ++ toString idx ++ " has min_staff > max_staff")
            else none
          | none => none)
      let openErr :=
        if (operating_hours.filter (fun oh => oh.is_open)).isEmpty then
          ["At least one day must be open for operations"]
        else []
      dayErr ++ staffErrs ++ openErr
  let minEmp := constraints.min_employees_per_day.getD 1
  let maxEmp := constraints.max_employees_per_day.getD 10
  let empErr :=
    if minEmp > maxEmp then
      ["Minimum employees per day cannot exceed maximum employees per day"]
    else []
  ohErrors ++ empErr

/-! ## Business coverage planner (`_create_business_coverage_plan`,
scheduler.py lines 2418–2855)

The planner is embedded in stages matching the source blocks.  `none`
models a call that does not return normally: the `random.randint`
`ValueError` when `min_shift_hours > max_shift_hours`, the
`ZeroDivisionError` when a drawn or probed duration is `0`, the
`UnboundLocalError` raised for `total_hours < 6` (the dangling
`elif not require_manager_coverage:` at line 2673 reads a local that is
only assigned inside the `total_hours >= 6` branch, so the short-day
`else` branch at line 2678 is unreachable), and the nontermination of the
sequential manager-shift loop when the shift advance is non-positive. -/

/-- The retry loop at lines 2455–2462: when the initial shift count
exceeds 6, probe durations `range(min_shift_hours, max_shift_hours + 1)`
for one needing at most 6 shifts.  Outer `none` = `ZeroDivisionError` on a
zero probe; inner result is the first acceptable `(duration, shifts)` pair
if any. -/
def planRetryFind (total : Int) : List Int → Option (Option (Int × Int))
  | [] => some none
  | dur :: rest =>
    if dur = 0 then none
    else
      let test_shifts := max 2 (Int.tdiv total dur + 1)
      if test_shifts ≤ 6 then some (some (dur, test_shifts))
      else planRetryFind total rest

/-- The shared tail of one staff-shift iteration (lines 2501–2540): the
duration-constraint check, the business-hours check, and the template
construction with the type chosen by the loop index. -/
def planStaffFinish (close_hour min_shift_hours max_shift_hours required_shifts : Int)
    (i : Nat) (start_hour end_hour actual_duration : Int) : Option ShiftTemplate :=
  if actual_duration < min_shift_hours ∨ actual_duration > max_shift_hours then
    none  -- lines 2502–2504: duration outside the user constraints
  else if start_hour < close_hour ∧ end_hour ≤ close_hour then
    let ttype :=
      if i = 0 then "opening_shift"
      else if (i : Int) = required_shifts - 1 then "closing_shift"
      else "mid_shift"
    some { start_time := start_hour, end_time := end_hour,
           duration := actual_duration, ttype := ttype,
           required_roles := [("manager", 1), ("employee", 1)] }
  else
    none

/-- One iteration of the staff-shift loop (lines 2472–2540) at index `i`;
`none` models `continue`.  The stored `duration` is `actual_duration`. -/
def planStaffShift (open_hour close_hour min_shift_hours max_shift_hours
    optimal_shift_duration required_shifts : Int) (i : Nat) : Option ShiftTemplate :=
  let start_hour := open_hour + (i : Int) * optimal_shift_duration
  let end0 := start_hour + optimal_shift_duration
  if end0 > close_hour then
    planStaffFinish close_hour min_shift_hours max_shift_hours required_shifts i
      start_hour close_hour (close_hour - start_hour)
  else if (i : Int) = required_shifts - 1 ∧ end0 < close_hour then
    let remaining_hours := close_hour - start_hour
    if remaining_hours ≤ max_shift_hours ∧ remaining_hours ≥ min_shift_hours then
      planStaffFinish close_hour min_shift_hours max_shift_hours required_shifts i
        start_hour close_hour remaining_hours
    else if remaining_hours < min_shift_hours then
      none  -- skip this shift if it would be too short
    else if remaining_hours > max_shift_hours then
      planStaffFinish close_hour min_shift_hours max_shift_hours required_shifts i
        start_hour (start_hour + max_shift_hours) max_shift_hours
    else
      planStaffFinish close_hour min_shift_hours max_shift_hours required_shifts i
        start_hour end0 optimal_shift_duration
  else
    planStaffFinish close_hour min_shift_hours max_shift_hours required_shifts i
      start_hour end0 optimal_shift_duration

/-- Morning/afternoon/evening manager shifts (lines 2546–2596), emitted
only when manager coverage is required. -/
def planCoverageManagerShifts (open_hour close_hour min_shift_hours max_shift_hours : Int) :
    List ShiftTemplate :=
  let manager_shift_duration := min max_shift_hours (max min_shift_hours 4)
  let morning_start := open_hour
  let morning_end := min (open_hour + manager_shift_duration) close_hour
  let morning :=
    if morning_end > morning_start then
      [{ start_time := morning_start, end_time := morning_end,
         duration := morning_end - morning_start, ttype := "morning_manager",
         required_roles := [("manager", 1)] : ShiftTemplate }]
    else []
  let afternoon_start := open_hour + 2
  let afternoon_end := min (afternoon_start + manager_shift_duration) close_hour
  let afternoon :=
    if afternoon_end > afternoon_start then
      [{ start_time := afternoon_start, end_time := afternoon_end,
         duration := afternoon_end - afternoon_start, ttype := "afternoon_manager",
         required_roles := [("manager", 1)] : ShiftTemplate }]
    else []
  let evening_start := max (close_hour - manager_shift_duration) (open_hour + 4)
  let evening_end := close_hour
  let evening :=
    if evening_start < evening_end then
      [{ start_time := evening_start, end_time := evening_end,
         duration := evening_end - evening_start, ttype := "evening_manager",
         required_roles := [("manager", 1)] : ShiftTemplate }]
    else []
  morning ++ afternoon ++ evening

/-- The sequential manager-shift `while` loop (lines 2624–2651).  `fuel`
bounds the iterations; exhausting it models the nontermination that the
source exhibits when the computed shift advance is non-positive. -/
def planSeqLoop (close_hour min_shift_hours manager_shift_duration : Int) :
    Nat → Int → List ShiftTemplate → Option (List ShiftTemplate)
  | 0, _, _ => none
  | fuel + 1, current_start, acc =>
    if current_start < close_hour then
      let current_end := min (current_start + manager_shift_duration) close_hour
      if current_end - current_start ≥ min_shift_hours then
        planSeqLoop close_hour min_shift_hours manager_shift_duration fuel current_end
          (acc ++ [{ start_time := current_start, end_time := current_end,
                     duration := current_end - current_start, ttype := "manager_shift",
                     required_roles := [("manager", 1)] : ShiftTemplate }])
      else
        -- remaining time too short: extend the last shift to close, then break
        match acc.getLast? with
        | none => some acc
        | some last =>
          some (acc.dropLast ++
            [{ last with end_time := close_hour, duration := close_hour - last.start_time }])
    else
      some acc

/-- Sequential manager distribution (lines 2598–2654). -/
def planSeqManagerShifts (open_hour close_hour total_hours min_shift_hours max_shift_hours : Int) :
    Option (List ShiftTemplate) :=
  let manager_shift_duration := min max_shift_hours (max min_shift_hours 6)
  if total_hours ≤ manager_shift_duration then
    some [{ start_time := open_hour, end_time := close_hour, duration := total_hours,
            ttype := "full_day_manager", required_roles := [("manager", 1)] }]
  else
    planSeqLoop close_hour min_shift_hours manager_shift_duration
      ((close_hour - open_hour).toNat + 1) open_hour []

/-- The post-generation validation filter (lines 2726–2742): keep a shift
iff it lies within business hours and its stored duration is within the
user bounds. -/
def planValidShift (open_hour close_hour min_shift_hours max_shift_hours : Int)
    (s : ShiftTemplate) : Bool :=
  s.start_time ≥ open_hour ∧ s.end_time ≤ close_hour ∧
  s.duration ≥ min_shift_hours ∧ s.duration ≤ max_shift_hours

/-- The planner's concluding validation and gap-filling (lines 2725–2855):
filter the generated shifts against business hours and the duration
bounds, compute the coverage bounds of the survivors, clip any shift still
ending after close (the in-place fix of lines 2808–2815, provably a no-op
post-validation), and add the emergency opening/closing gap fillers. -/
def planAssemble (open_hour close_hour min_shift_hours max_shift_hours : Int)
    (shifts0 : List ShiftTemplate) : List ShiftTemplate :=
  let validated := shifts0.filter
    (planValidShift open_hour close_hour min_shift_hours max_shift_hours)
  -- lines 2745–2746: coverage bounds of the validated shifts
  let coverage_start :=
    ((validated.map (fun s => s.start_time)).min?).getD open_hour
  let coverage_end :=
    ((validated.map (fun s => s.end_time)).max?).getD close_hour
  -- lines 2802–2815: clip shifts that end after close
  let shifts1 :=
    if coverage_end > close_hour then
      validated.map (fun s =>
        if s.end_time > close_hour then
          { s with end_time := close_hour, duration := close_hour - s.start_time }
        else s)
    else validated
  -- lines 2818–2853: emergency gap fillers, added after validation
  let emergency_open :=
    if coverage_start > open_hour then
      [{ start_time := open_hour, end_time := coverage_start,
         duration := coverage_start - open_hour, ttype := "emergency_opening",
         required_roles := [("manager", 1), ("employee", 1)] : ShiftTemplate }]
    else []
  let emergency_close :=
    if coverage_start > open_hour ∨ coverage_end < close_hour then
      if coverage_end < close_hour then
        [{ start_time := coverage_end, end_time := close_hour,
           duration := close_hour - coverage_end, ttype := "emergency_closing",
           required_roles := [("manager", 1), ("employee", 1)] : ShiftTemplate }]
      else []
    else []
  emergency_open ++ shifts1 ++ emergency_close

/-- `_create_business_coverage_plan`.  `d` is the `random.randint(
min_shift_hours, max_shift_hours)` draw of line 2449 (a valid draw
satisfies `min_shift_hours ≤ d ≤ max_shift_hours`); the `min_staff` /
`max_staff` parameters are accepted and never read, exactly as in the
source; `require_manager_coverage` stands for
`constraints.get("require_manager_coverage", True)`. -/
def _create_business_coverage_plan (operating_hours : List DayHours)
    (min_staff max_staff : Int) (min_shift_hours max_shift_hours : Int)
    (require_manager_coverage : Bool) (d : Int) : Option (List ShiftTemplate) :=
  match operating_hours with
  | [] => some []
  | first_hours :: _ =>
    let open_hour := first_hours.open_time
    let close_hour := first_hours.close_time
    let total_hours := close_hour - open_hour
    if h6 : total_hours ≥ 6 then
      -- line 2449: random.randint raises ValueError when the bounds are inverted
      if min_shift_hours > max_shift_hours then none
      -- line 2452: int(total_hours / optimal_shift_duration)
      else if d = 0 then none
      else
        let required0 := max 2 (Int.tdiv total_hours d + 1)
        let retry : Option (Option (Int × Int)) :=
          if required0 > 6 then
            planRetryFind total_hours (intRange min_shift_hours (max_shift_hours + 1))
          else some none
        match retry with
        | none => none
        | some found =>
          let optimal_shift_duration := (found.map Prod.fst).getD d
          let required_shifts := (found.map Prod.snd).getD required0
          let staff := (List.range required_shifts.toNat).filterMap
            (planStaffShift open_hour close_hour min_shift_hours max_shift_hours
              optimal_shift_duration required_shifts)
          let coverage :=
            if require_manager_coverage then
              planCoverageManagerShifts open_hour close_hour min_shift_hours max_shift_hours
            else []
          match planSeqManagerShifts open_hour close_hour total_hours
              min_shift_hours max_shift_hours with
          | none => none
          | some seq =>
            let full_day :=
              if max_shift_hours ≥ total_hours then
                [{ start_time := open_hour, end_time := close_hour, duration := total_hours,
                   ttype := "full_day_manager", required_roles := [("manager", 1)] : ShiftTemplate }]
              else []
            some (planAssemble open_hour close_hour min_shift_hours max_shift_hours
              (staff ++ coverage ++ seq ++ full_day))
    else
      -- line 2673 `elif not require_manager_coverage:` reads the unassigned
      -- local `require_manager_coverage`: UnboundLocalError
      none

/-! ## Constraint normalizer (`_ensure_constraint_defaults`,
scheduler.py lines 701–834)

`enhanced_constraints = constraints.copy()` is a *shallow* copy: the
nested `operating_hours` list object is shared between the input and the
copy, and the normalizer appends to and sorts that shared list in place
(lines 720, 729, 813).  The embedding therefore returns the pair
`(enhanced, input_after_call)`.  `none` models a call that raises (the
business coverage planner's exceptions propagate, see
`_create_business_coverage_plan`); the claims about the normalizer concern
calls that return. -/

/-- The closed-by-default entry block 1 appends for a missing weekday
(lines 720–727). -/
def defaultClosedDay0 (day : Int) : DayHours :=
  { day_of_week := day, is_open := false, open_time := 9, close_time := 17,
    min_staff := 0, max_staff := 0 }

/-- The closed-by-default entry block 2 appends for a missing weekday
(lines 813–820; note the different staffing defaults). -/
def defaultClosedDay1 (day : Int) : DayHours :=
  { day_of_week := day, is_open := false, open_time := 9, close_time := 17,
    min_staff := 1, max_staff := 10 }

/-- Block 1 (lines 713–741): if fewer than 7 entries, append the missing
weekdays closed and sort by `day_of_week` (stable Python sort). -/
def ensureOperatingHoursBlock1 (oh0 : List DayHours) : List DayHours :=
  if oh0.length < 7 then
    let missing := (List.range 7).filter
      (fun (day : Nat) => ¬ oh0.any (fun oh => oh.day_of_week = (day : Int)))
    sortByKey (fun oh => oh.day_of_week)
      (oh0 ++ missing.map (fun (day : Nat) => defaultClosedDay0 (day : Int)))
  else oh0

/-- Block 2 (lines 791–833): append any still-missing weekday (with the
second set of defaults); an empty list is replaced by a full closed week. -/
def ensureOperatingHoursBlock2 (oh : List DayHours) : List DayHours :=
  if oh.isEmpty then
    (List.range 7).map (fun (day : Nat) => defaultClosedDay1 (day : Int))
  else
    let missing := (List.range 7).filter
      (fun (day : Nat) => ¬ oh.any (fun dh => dh.day_of_week = (day : Int)))
    oh ++ missing.map (fun (day : Nat) => defaultClosedDay1 (day : Int))

/-- The `"Standard Shift"` default template of lines 765–774 (the dict
carries no `"type"`/`"duration"` keys; their read-back defaults are
`"general"` and end − start). -/
def standardShiftTemplate : ShiftTemplate :=
  { start_time := 9, end_time := 17, duration := 8, ttype := "general",
    required_roles := [("general", 1)] }

/-- `_ensure_constraint_defaults`.  `d` is the planner's duration draw
(used only when shift templates are generated).  Returns
`(enhanced, input_after_call)`; `none` = the planner raised (the input's
shared `operating_hours` list was still mutated before the exception, but
there is no returned value). -/
def _ensure_constraint_defaults (constraints : ConstraintDoc) (d : Int) :
    Option (ConstraintDoc × ConstraintDoc) :=
  let oh0 := constraints.operating_hours.getD []
  let oh1 := ensureOperatingHoursBlock1 oh0
  let existing_shift_templates := constraints.shift_templates.getD []
  let templatesStep : Option (Option (List ShiftTemplate)) :=
    if existing_shift_templates.isEmpty ∧ ¬ oh1.isEmpty then
      match _create_business_coverage_plan oh1 (constraints.min_staff.getD 1)
          (constraints.max_staff.getD 8)
          (constraints.min_consecutive_hours_per_shift.getD 4)
          (constraints.max_consecutive_hours_per_shift.getD 12)
          (constraints.require_manager_coverage.getD true) d with
      | none => none
      | some generated_templates =>
        if ¬ generated_templates.isEmpty then some (some generated_templates)
        else some constraints.shift_templates  -- `if generated_templates:` guard fails
    else if ¬ existing_shift_templates.isEmpty then
      some constraints.shift_templates
    else
      some (some [standardShiftTemplate])
  match templatesStep with
  | none => none
  | some templates' =>
    let locations' :=
      if (constraints.locations.getD []).isEmpty then some ["Main Office"]
      else constraints.locations
    let departments' :=
      if (constraints.departments.getD []).isEmpty then some ["Operations"]
      else constraints.departments
    let roles' :=
      if (constraints.roles.getD []).isEmpty then some ["general"]
      else constraints.roles
    let oh3 := ensureOperatingHoursBlock2 oh1
    let enhanced := { constraints with
      operating_hours := some oh3,
      shift_templates := templates',
      locations := locations',
      departments := departments',
      roles := roles' }
    -- the input's nested operating_hours list is the same object the two
    -- blocks appended to; a document without the key handed the blocks a
    -- fresh list and is untouched
    let input_after := { constraints with
      operating_hours := constraints.operating_hours.map (fun _ => oh3) }
    some (enhanced, input_after)

/-! ## Employee filter (`_filter_employees_by_constraints`,
scheduler.py lines 1460–1548) -/

/-- `_filter_employees_by_constraints`: drop inactive or anonymized
employees, then apply the role, department and skill-requirement filters
(each only when the constraint declares a non-empty list); location
filtering is removed in the source. -/
def _filter_employees_by_constraints (employees : List Employee)
    (constraints : ConstraintDoc) : List Employee :=
  let constraint_roles := constraints.roles.getD []
  let constraint_departments := constraints.departments.getD []
  let constraint_skills := constraints.skill_requirements
  employees.filter (fun employee =>
    if ¬ employee.isActive ∨ employee.anonymized then false
    else if ¬ constraint_roles.isEmpty ∧ ¬ constraint_roles.contains employee.role then false
    else if ¬ constraint_departments.isEmpty ∧
            ¬ constraint_departments.contains employee.department then false
    else if ¬ constraint_skills.isEmpty then
      constraint_skills.any (fun skill_req =>
        if skill_req.required_skills.isEmpty then true
        else skill_req.required_skills.all (fun s => employee.skills.contains s))
    else true)

/-! ## Conflict detector (`detect_scheduling_conflicts`,
scheduler.py lines 1988–2280) -/

/-- `detect_scheduling_conflicts`.  The conflicts and suggestions are
assembled in source order; the duplicated unavailable-employee block
(lines 2041–2059 and 2061–2079) is reproduced. -/
def detect_scheduling_conflicts (constraints : ConstraintDoc) (employees : List Employee)
    (start_date end_date : Int) : ConflictReport :=
  let operating_hours := constraints.operating_hours.getD []
  let active_employees := employees.filter (fun emp => emp.isActive)
  let total_employees := active_employees.length
  let open_days := operating_hours.filter (fun oh => oh.is_open)
  let noOpenConf : List Conflict :=
    if open_days.isEmpty then
      [{ ctype := "no_operating_days",
         message := "No days are marked as open for business",
         severity := "critical" }]
    else []
  let noOpenSugg : List Suggestion :=
    if open_days.isEmpty then
      [{ stype := "enable_business_days", category := "auto_fix",
         priority := "critical", auto_fixable := true }]
    else []
  let unavailable_employees :=
    if ¬ open_days.isEmpty then
      (active_employees.filter (fun emp =>
        ¬ open_days.any (fun day_hours =>
          _is_employee_available_on_day emp day_hours.day_of_week))).map
        (fun emp => emp.firstName)
    else []
  let unavailConfs : List Conflict :=
    if ¬ unavailable_employees.isEmpty then
      [{ ctype := "employee_availability_issue",
         message := toString unavailable_employees.length ++
           " employee(s) have no availability during operating days: " ++
           String.intercalate ", " unavailable_employees,
         severity := "warning" },
       { ctype := "employee_unavailable",
         message := toString unavailable_employees.length ++
           " employee(s) have no availability during operating days: " ++
           String.intercalate ", " unavailable_employees,
         severity := "warning" }]
    else []
  let unavailSuggs : List Suggestion :=
    if ¬ unavailable_employees.isEmpty then
      [{ stype := "review_employee_availability", category := "manual",
         priority := "medium", auto_fixable := false },
       { stype := "review_employee_availability", category := "manual_review",
         priority := "medium", auto_fixable := false }]
    else []
  let staffingConfs : List Conflict := open_days.flatMap (fun day_hours =>
    let day_name := dayNameOf day_hours.day_of_week
    let min_staff := day_hours.min_staff
    let max_staff := day_hours.max_staff
    (if min_staff > (total_employees : Int) then
      [{ ctype := "insufficient_staff",
         message := day_name ++ ": Requires " ++ toString min_staff ++
           " staff but only " ++ toString total_employees ++ " employees available",
         severity := "critical", day := some day_name : Conflict }]
    else []) ++
    (if min_staff > max_staff then
      [{ ctype := "invalid_staff_range",
         message := day_name ++ ": Minimum staff (" ++ toString min_staff ++
           ") exceeds maximum staff (" ++ toString max_staff ++ ")",
         severity := "critical", day := some day_name : Conflict }]
    else []))
  let staffingSuggs : List Suggestion := open_days.flatMap (fun day_hours =>
    let min_staff := day_hours.min_staff
    let max_staff := day_hours.max_staff
    (if min_staff > (total_employees : Int) then
      [{ stype := "reduce_min_staff", category := "auto_fix", priority := "high",
         auto_fixable := true,
         suggested_min := some (min (total_employees : Int)
           (max 1 ((total_employees : Int) - 1))) : Suggestion }]
    else []) ++
    (if min_staff > max_staff then
      [{ stype := "fix_staff_range", category := "auto_fix", priority := "critical",
         auto_fixable := true,
         suggested_max := some (max min_staff (total_employees : Int)) : Suggestion }]
    else []))
  let dates := (List.range ((end_date - start_date).toNat + 1)).map
    (fun i => start_date + (i : Int))
  let availability_conflicts :=
    (active_employees.filter (fun employee =>
      ¬ dates.any (fun date =>
        let day_of_week := dayOfWeekSun date
        match operating_hours.find? (fun oh => oh.day_of_week = day_of_week) with
        | some day_hours =>
          day_hours.is_open ∧ _check_employee_availability employee date "09:00" "17:00"
        | none => false))).length
  let availSeverity := if availability_conflicts = total_employees then "critical" else "warning"
  let availConfs : List Conflict :=
    if availability_conflicts > 0 then
      [{ ctype := "availability_conflicts",
         message := toString availability_conflicts ++
           " employee(s) have no availability during operating days",
         severity := availSeverity }]
    else []
  let availSuggs : List Suggestion :=
    if availability_conflicts > 0 then
      if availSeverity = "critical" then
        [{ stype := "update_availability", category := "manual",
           priority := "critical", auto_fixable := false }]
      else
        [{ stype := "review_availability", category := "manual",
           priority := "medium", auto_fixable := false }]
    else []
  let max_consecutive := constraints.max_consecutive_days.getD 5
  let consecConfs : List Conflict :=
    if max_consecutive < 2 then
      [{ ctype := "unrealistic_consecutive_limit",
         message := "Very restrictive consecutive days limit (" ++
           toString max_consecutive ++ ") may prevent efficient scheduling",
         severity := "warning" }]
    else []
  let consecSuggs : List Suggestion :=
    if max_consecutive < 2 then
      [{ stype := "increase_consecutive_limit", category := "auto_fix",
         priority := "low", auto_fixable := true }]
    else []
  let available_skills_empty := active_employees.all (fun e => e.skills.isEmpty)
  let available_roles_empty := active_employees.all (fun e => e.role = "")
  let qualConfs : List Conflict :=
    if available_skills_empty ∧ available_roles_empty then
      [{ ctype := "no_employee_skills_roles",
         message := "No skills or roles defined for employees",
         severity := "warning" }]
    else []
  let qualSuggs : List Suggestion :=
    if available_skills_empty ∧ available_roles_empty then
      [{ stype := "define_employee_qualifications", category := "manual",
         priority := "medium", auto_fixable := false }]
    else []
  let conflicts := noOpenConf ++ unavailConfs ++ staffingConfs ++ availConfs ++
    consecConfs ++ qualConfs
  let suggestions := noOpenSugg ++ unavailSuggs ++ staffingSuggs ++ availSuggs ++
    consecSuggs ++ qualSuggs
  let critical := conflicts.filter (fun c => c.severity = "critical")
  let warning := conflicts.filter (fun c => c.severity = "warning")
  let auto_fixable := suggestions.filter (fun s => s.auto_fixable)
  let manual := suggestions.filter (fun s => ¬ s.auto_fixable)
  { conflicts := conflicts, suggestions := suggestions,
    conflict_count := conflicts.length,
    critical_count := critical.length,
    warning_count := warning.length,
    auto_fixable_count := auto_fixable.length,
    manual_suggestions_count := manual.length,
    can_proceed := critical.length = 0,
    has_critical_conflicts := critical.length > 0 }

/-! ## Automatic conflict resolution (scheduler.py lines 2857–2976) -/

/-- `_adjust_staffing_requirements`: clamp each day's `min_staff` to
`max(1, available - 1)` when it exceeds the active head-count, and
`max_staff` to `available` (lines 2894–2914). -/
def _adjust_staffing_requirements (constraints : ConstraintDoc)
    (employees : List Employee) : ConstraintDoc :=
  let available_employees : Int := (employees.filter (fun e => e.isActive)).length
  match constraints.operating_hours with
  | none => constraints
  | some oh =>
    let oh' := oh.map (fun day_hours =>
      let day_hours :=
        if day_hours.min_staff > available_employees then
          { day_hours with min_staff := max 1 (available_employees - 1) }
        else day_hours
      if day_hours.max_staff > available_employees then
        { day_hours with max_staff := available_employees }
      else day_hours)
    { constraints with operating_hours := some oh' }

/-- `_adjust_availability_requirements` (lines 2916–2930). -/
def _adjust_availability_requirements (constraints : ConstraintDoc)
    (employees : List Employee) : ConstraintDoc :=
  let available_employees :=
    (employees.filter (fun e => e.isActive ∧ ¬ e.availability.isEmpty)).length
  if available_employees = 0 then constraints
  else _adjust_staffing_requirements constraints employees

/-- `_adjust_shift_duration_constraints` (lines 2932–2962). -/
def _adjust_shift_duration_constraints (constraints : ConstraintDoc) : ConstraintDoc :=
  match constraints.operating_hours.getD [] with
  | [] => constraints
  | first_hours :: _ =>
    let total_hours := first_hours.close_time - first_hours.open_time
    let current_min := constraints.min_consecutive_hours_per_shift.getD 4
    let current_max := constraints.max_consecutive_hours_per_shift.getD 12
    let constraints :=
      if total_hours > current_max then
        { constraints with max_consecutive_hours_per_shift := some (min total_hours 12) }
      else constraints
    if total_hours < current_min then
      { constraints with min_consecutive_hours_per_shift := some (max 1 total_hours) }
    else constraints

/-- `_ensure_manager_coverage` (lines 2964–2976) returns the constraints
unchanged (its only effect is promoting senior roster members to managers,
a roster mutation; `detect_scheduling_conflicts` never emits the
`manager_coverage_gap` conflict that triggers it, so the branch is dead in
the generation flow). -/
def _ensure_manager_coverage (constraints : ConstraintDoc)
    (employees : List Employee) : ConstraintDoc :=
  constraints

/-- `_resolve_scheduling_conflicts_automatically` (lines 2857–2892). -/
def _resolve_scheduling_conflicts_automatically (constraints : ConstraintDoc)
    (employees : List Employee) (conflicts : List Conflict) : ConstraintDoc :=
  conflicts.foldl (fun resolved conflict =>
    if conflict.ctype = "insufficient_staff" then
      _adjust_staffing_requirements resolved employees
    else if conflict.ctype = "no_availability" then
      _adjust_availability_requirements resolved employees
    else if conflict.ctype = "shift_duration_conflict" then
      _adjust_shift_duration_constraints resolved
    else if conflict.ctype = "manager_coverage_gap" then
      _ensure_manager_coverage resolved employees
    else resolved) constraints

/-! ## Heuristic fallback scheduler (`_basic_random_schedule`,
scheduler.py lines 58–592)

The per-run employee ledger (shift count, weekly hours, consecutive-day
streak, last worked day) is carried as functions from employee-id strings,
initialised to the dicts' zero values; the accumulated schedule list and
the choice-index stream ride along. -/

structure LedgerState where
  schedules : List Assignment
  shift_count : String → Nat
  weekly_hours : String → Int
  consec_days : String → Nat
  last_day : String → Option Int
  rng : List Nat

def updFn {β : Type} (f : String → β) (k : String) (v : β) : String → β :=
  fun x => if x = k then v else f x

/-- `managers`/`administrators` role test used throughout. -/
def isManagerRole (r : String) : Bool :=
  r = "manager" ∨ r = "administrator"

/-- The fairness score of lines 469–473,
`shift_count * 2 + weekly_hours * 0.5 + consecutive_days * 1.5`, kept in
half-units (the Python value scaled by 2) so it stays an exact integer:
weekly hours are whole numbers here (every engine-made shift has
whole-hour times), and the score is only ever *compared* (the fairness
sort, and the positive selection weights modelled by the choice stream),
which the scaling preserves. -/
def fairnessScore (st : LedgerState) (emp : Employee) : Int :=
  (st.shift_count emp._id : Int) * 4 + st.weekly_hours emp._id +
    (st.consec_days emp._id : Int) * 3

def selectRoleCandidates (skill_requirements : List SkillRequirement)
    (role_to_fill : String) (available : List Employee) : List Employee :=
  let rc0 := available.filter (fun emp => emp.role = role_to_fill)
  let rc1 :=
    if role_to_fill = "manager" ∧ rc0.isEmpty then
      let manager_candidates := available.filter (fun emp => isManagerRole emp.role)
      if ¬ manager_candidates.isEmpty then manager_candidates else rc0
    else rc0
  if rc1.isEmpty ∧ role_to_fill ≠ "general" then
    -- first skill requirement for this role whose qualified set is non-empty
    let scan := skill_requirements.filterMap (fun skill_req =>
      if skill_req.role = role_to_fill then
        let skill_cands := available.filter (fun emp =>
          skill_req.required_skills.all (fun s => emp.skills.contains s))
        if ¬ skill_cands.isEmpty then some skill_cands else none
      else none)
    (scan.head?).getD rc1
  else rc1

/-- Candidate-pool construction of one selection (lines 362–443): the
role/skill candidate stages, the general fallback, the stable fairness
sort and the 3-day anti-repetition filter.  Returns the final pool and the
assigned role. -/
def selectPool (skill_requirements : List SkillRequirement)
    (template : ShiftTemplate) (current_date : Int) (scheduled_today : Nat)
    (available : List Employee) (st : LedgerState) : List Employee × String :=
  let shift_roles := template.required_roles
  let position_roles0 := shift_roles.flatMap (fun rc => List.replicate rc.2 rc.1)
  let position_roles := if position_roles0.isEmpty then ["general"] else position_roles0
  let role_to_fill := position_roles.getD (scheduled_today % position_roles.length) "general"
  let rc2 := selectRoleCandidates skill_requirements role_to_fill available
  let (rc3, assigned_role) :=
    if rc2.isEmpty then (available, "general") else (rc2, role_to_fill)
  -- line 404: stable sort by (shifts, hours, consecutive days, -experience)
  let rc4 := sortByKey (fun emp =>
    toLex ((st.shift_count emp._id : Int),
      toLex (st.weekly_hours emp._id,
        toLex ((st.consec_days emp._id : Int), -emp.experience_months)))) rc3
  -- lines 416–433: anti-repetition against the same role over the last 3 days
  let three_days_ago := current_date - 3
  let recent_assignments := st.schedules.filter (fun s => s.date ≥ three_days_ago)
  let recent_shift_assignments :=
    (recent_assignments.filter (fun a => a.role = assigned_role)).map (fun a => a.employeeId)
  let rc5 :=
    if ¬ recent_shift_assignments.isEmpty ∧ rc4.length > 2 then
      let recent_employees := recent_shift_assignments.dedup
      if rc4.length > recent_employees.length then
        rc4.filter (fun emp => ¬ recent_employees.contains emp._id)
      else rc4
    else rc4
  let rc6 :=
    if rc5.isEmpty then
      let r := available.filter (fun emp => emp.role = assigned_role)
      if r.isEmpty then available else r
    else rc5
  (rc6, assigned_role)

def selectAssignee (skill_requirements : List SkillRequirement)
    (template : ShiftTemplate) (current_date : Int) (scheduled_today : Nat)
    (available : List Employee) (st : LedgerState) :
    Option (Employee × String × List Nat) :=
  let shift_roles := template.required_roles
  let pool := selectPool skill_requirements template current_date scheduled_today
    available st
  let rc6 := pool.1
  let assigned_role := pool.2
  if rc6.length > 1 then
    let rc7 :=
      if shift_roles.any (fun rc => rc.1 = "manager") then
        -- lines 445–456: `today_assigned_managers` is always empty — the
        -- source compares each schedule's date *string* with the datetime
        -- `current_date` and reads the nonexistent "employee_role" key, so
        -- no schedule ever matches
        let today_assigned_managers : List String := []
        let available_managers :=
          rc6.filter (fun emp => ¬ today_assigned_managers.contains emp._id)
        if ¬ available_managers.isEmpty then available_managers else rc6
      else rc6
    let fairness_scores := rc7.map (fun emp => (fairnessScore st emp, emp))
    let sortedScores := sortByKey (fun p => p.1) fairness_scores
    let top_count := max 1 (sortedScores.length / 2)
    let top_candidates := sortedScores.take top_count
    let (n, rng') := takeChoice st.rng
    match pickAt (top_candidates.map (fun p => p.2)) n with
    | some emp => some (emp, assigned_role, rng')
    | none => none
  else
    match rc6.head? with
    | some emp => some (emp, assigned_role, st.rng)
    | none => none

/-- One assignment step (lines 356–545 body): select, build the schedule
entry, remove the employee from the day pool, update the ledger.  `none`
models an uncaught `IndexError` (empty candidate pool or empty
constraint-department list on a department re-pick). -/
def assignStep (constraints : ConstraintDoc) (template : ShiftTemplate)
    (current_date : Int) (scheduled_today : Nat) (available : List Employee)
    (st : LedgerState) : Option (List Employee × LedgerState) :=
  match selectAssignee constraints.skill_requirements template current_date
      scheduled_today available st with
  | none => none
  | some (assigned_employee, assigned_role, rng1) =>
    let constraint_locations := constraints.locations.getD ["Main Office"]
    let constraint_departments := constraints.departments.getD ["Operations"]
    let (assigned_location, rng2) :=
      if assigned_employee.location = "" ∧ ¬ constraint_locations.isEmpty then
        let (n, rng2) := takeChoice rng1
        ((pickAt constraint_locations n).getD "", rng2)
      else (assigned_employee.location, rng1)
    let deptStep : Option (String × List Nat) :=
      if ¬ constraint_departments.contains assigned_employee.department then
        let (n, rng3) := takeChoice rng2
        match pickAt constraint_departments n with
        | some dep => some (dep, rng3)
        | none => none  -- random.choice([]) raises IndexError
      else some (assigned_employee.department, rng2)
    match deptStep with
    | none => none
    | some (assigned_department, rng3) =>
      let entry : Assignment :=
        { employeeId := assigned_employee._id,
          date := current_date,
          startTime := template.start_time,
          endTime := template.end_time,
          location := assigned_location,
          role := assigned_role,
          department := assigned_department }
      let empId := assigned_employee._id
      let shift_duration : Int := calcHoursH template.start_time template.end_time
      let newConsec :=
        if st.last_day empId = some (current_date - 1) then st.consec_days empId + 1 else 1
      let st' : LedgerState :=
        { schedules := st.schedules ++ [entry],
          shift_count := updFn st.shift_count empId (st.shift_count empId + 1),
          weekly_hours := updFn st.weekly_hours empId (st.weekly_hours empId + shift_duration),
          consec_days := updFn st.consec_days empId newConsec,
          last_day := updFn st.last_day empId (some current_date),
          rng := rng3 }
      some (available.erase assigned_employee, st')

/-- The inner `while scheduled_today < employees_to_schedule and
available_employees:` loop (lines 352–545), recursing on the outstanding
head-count. -/
def assignLoop (constraints : ConstraintDoc) (shift_templates : List ShiftTemplate)
    (current_date : Int) :
    Nat → List Employee → Nat → LedgerState → Option LedgerState
  | 0, _, _, st => some st
  | _ + 1, [], _, st => some st
  | remaining + 1, emp :: rest, scheduled_today, st =>
    let available := emp :: rest
    let template_count := if shift_templates.length = 0 then 1 else shift_templates.length
    -- `template_idx` equals `scheduled_today`: both start at 0 and are
    -- incremented exactly once per loop iteration
    let template := (shift_templates.getD (scheduled_today % template_count)
      standardShiftTemplate)
    match assignStep constraints template current_date scheduled_today available st with
    | none => none
    | some (available', st') =>
      assignLoop constraints shift_templates current_date remaining available'
        (scheduled_today + 1) st'

/-- Result of processing one day of the fallback loop. -/
inductive FbDayResult where
  | raised
  | retEmpty
  | ok (shift_templates : List ShiftTemplate) (st : LedgerState)

/-- The in-loop template synthesis of lines 287–351 (reached only when the
coverage planner returned no templates).  The dicts built here carry no
`"type"`/`"duration"` keys; read-back defaults (`"general"`, end − start)
are recorded.  Returns `none` for the `return []` at line 294. -/
def fallbackDayTemplates (constraints : ConstraintDoc) : Option (List ShiftTemplate) :=
  match constraints.operating_hours.getD [] with
  | [] => none
  | first_hours :: _ =>
    let open_hour := first_hours.open_time
    let close_hour := first_hours.close_time
    let total_hours := close_hour - open_hour
    if total_hours ≤ 4 then
      some [{ start_time := open_hour, end_time := close_hour,
              duration := close_hour - open_hour, ttype := "general",
              required_roles := [("manager", 1), ("employee", 1)] }]
    else
      let mid_hour := open_hour + Int.tdiv total_hours 2
      some [{ start_time := open_hour, end_time := mid_hour,
              duration := mid_hour - open_hour, ttype := "general",
              required_roles := [("manager", 1), ("employee", 1)] },
            { start_time := mid_hour, end_time := close_hour,
              duration := close_hour - mid_hour, ttype := "general",
              required_roles := [("manager", 1), ("employee", 1)] },
            { start_time := open_hour, end_time := close_hour,
              duration := close_hour - open_hour, ttype := "general",
              required_roles := [("manager", 1)] }]

/-- The optimization-priority sort of the fallback scheduler
(lines 203–220, stable in every branch). -/
def sortedAvailable (constraints : ConstraintDoc) (st : LedgerState)
    (available_employees : List Employee) : List Employee :=
  let optimization_priority := constraints.optimization_priority.getD "balance_staffing"
  if optimization_priority = "fairness" then
    sortByKey (fun emp => st.shift_count emp._id) available_employees
  else if optimization_priority = "minimize_cost" then
    sortByKey (fun emp => emp.hourlyRate) available_employees
  else if optimization_priority = "maximize_coverage" then
    -- `len(emp.get("skills", [])) + len(emp.get("roles", []))`: employee
    -- documents have no "roles" key, so the second summand is 0
    sortByKeyRev (fun emp => emp.skills.length) available_employees
  else
    sortByKey (fun emp =>
      toLex ((st.shift_count emp._id : Int),
        toLex (-(emp.availability.length : Int), emp.experience_months)))
      available_employees

/-- The manager split and head-count top-up tail of the day-pool
construction (lines 250–284), over the sorted pool, the
constraint-filtered pool, the first-entry `min_staff` and the manager sort
key. -/
def dayPoolTail (sortedAvail filtered : List Employee) (fms : Int)
    (key : Employee → Int ×ₗ (Int ×ₗ Int)) : List Employee :=
  let managers0 := filtered.filter (fun emp => isManagerRole emp.role)
  let other_employees := filtered.filter (fun emp => ¬ isManagerRole emp.role)
  let managers1 :=
    if managers0.isEmpty then
      let all_managers := sortedAvail.filter (fun emp => isManagerRole emp.role)
      if ¬ all_managers.isEmpty then all_managers else managers0
    else
      -- `else:` bound to `if not managers:`: when managers exist, replace
      -- them by a copy of the whole day pool (duplicating non-managers)
      sortedAvail
  let other_employees2 :=
    if ((managers1 ++ other_employees).length : Int) < fms then
      let remaining_employees := sortedAvail.filter (fun emp =>
        ¬ (managers1 ++ other_employees).contains emp)
      other_employees ++ remaining_employees.take
        ((fms - ((managers1 ++ other_employees).length : Int)).toNat)
    else other_employees
  let managers2 := sortByKey key managers1
  managers2 ++ other_employees2

/-- The fallback scheduler's day-pool construction (lines 203–284): the
optimization-priority sort, the constraint filtering with its
first-entry `min_staff` fall-back, and the manager split with the
misindented `else` of line 263. -/
def fallbackDayPool (employees : List Employee) (constraints : ConstraintDoc)
    (current_date : Int) (st : LedgerState) : List Employee :=
  let operating_hours := constraints.operating_hours.getD []
  let available_employees := employees.filter (fun emp =>
    emp.isActive ∧ _check_employee_availability emp current_date "09:00" "17:00")
  -- lines 203–220: sort by the optimization priority (stable)
  let sortedAvail := sortedAvailable constraints st available_employees
  -- lines 222–243: constraint filtering
  let max_consecutive_days := constraints.max_consecutive_days.getD 6
  let min_rest_hours := constraints.min_rest_hours_between_shifts.getD 8
  let max_hours_per_week := constraints.max_hours_per_week.getD 40
  let filtered_employees0 := sortedAvail.filter (fun emp =>
    let emp_id := emp._id
    let restTooShort : Bool :=
      match st.last_day emp_id with
      | some last => current_date - last < ((min_rest_hours / 24 : Nat) : Int)
      | none => false
    ¬ (st.consec_days emp_id ≥ max_consecutive_days) ∧
    ¬ restTooShort ∧
    ¬ (st.weekly_hours emp_id ≥ (max_hours_per_week : Int)))
  -- line 246: `min_staff` is the *first* operating-hours entry's value
  let first_min_staff := ((operating_hours.head?).map (fun oh => oh.min_staff)).getD 1
  let filtered_employees :=
    if (filtered_employees0.length : Int) < first_min_staff then sortedAvail
    else filtered_employees0
  dayPoolTail sortedAvail filtered_employees first_min_staff
    (fun emp => toLex ((st.shift_count emp._id : Int),
      toLex (st.weekly_hours emp._id, (st.consec_days emp._id : Int))))

/-- One day of the fallback loop (lines 141–589). -/
def fallbackDay (employees : List Employee) (constraints : ConstraintDoc)
    (shift_templates : List ShiftTemplate) (current_date : Int) (st : LedgerState) :
    FbDayResult :=
  let operating_hours := constraints.operating_hours.getD []
  let day_of_week := dayOfWeekSun current_date
  match operating_hours.find? (fun oh => oh.day_of_week = day_of_week) with
  | none => FbDayResult.ok shift_templates st
  | some day_hours =>
    if ¬ day_hours.is_open then FbDayResult.ok shift_templates st
    else
    let min_staff_today := day_hours.min_staff
    let max_staff_today := day_hours.max_staff
    if min_staff_today ≤ 0 then FbDayResult.ok shift_templates st
    else
    let available_employees := employees.filter (fun emp =>
      emp.isActive ∧ _check_employee_availability emp current_date "09:00" "17:00")
    let employees_to_schedule : Int :=
      if (available_employees.length : Int) < min_staff_today then
        available_employees.length
      else
        min max_staff_today (max min_staff_today (available_employees.length : Int))
    if employees_to_schedule ≤ 0 then FbDayResult.ok shift_templates st
    else
    let dayPool := fallbackDayPool employees constraints current_date st
    -- lines 287–351: synthesise templates when the coverage plan was empty
    let templatesStep : Option (List ShiftTemplate) :=
      if shift_templates.isEmpty then fallbackDayTemplates constraints
      else some shift_templates
    match templatesStep with
    | none => FbDayResult.retEmpty
    | some shift_templates' =>
      match assignLoop constraints shift_templates' current_date
          employees_to_schedule.toNat dayPool 0 st with
      | none => FbDayResult.raised
      | some st' => FbDayResult.ok shift_templates' st'

/-- The outer `while current_date <= end_date:` loop, recursing on the
number of days left. -/
def fallbackLoop (employees : List Employee) (constraints : ConstraintDoc) :
    Nat → Int → List ShiftTemplate → LedgerState → Option (Option LedgerState)
  | 0, _, _, st => some (some st)
  | days + 1, current_date, shift_templates, st =>
    match fallbackDay employees constraints shift_templates current_date st with
    | FbDayResult.raised => none
    | FbDayResult.retEmpty => some none
    | FbDayResult.ok shift_templates' st' =>
      fallbackLoop employees constraints days (current_date + 1) shift_templates' st'

/-- `_basic_random_schedule`.  `d` is the coverage planner's duration draw
and `rng` the choice-index stream; `none` models an uncaught exception. -/
def _basic_random_schedule (employees : List Employee) (constraints : ConstraintDoc)
    (start_date end_date : Int) (d : Int) (rng : List Nat) : Option (List Assignment) :=
  match constraints.operating_hours.getD [] with
  | [] => some []  -- lines 72–75 (and the identical re-check at 110–113)
  | first_hours :: restOH =>
    let operating_hours := first_hours :: restOH
    let min_staff := first_hours.min_staff
    let max_staff := first_hours.max_staff
    let min_consecutive_hours_per_shift :=
      constraints.min_consecutive_hours_per_shift.getD 4
    let max_consecutive_hours_per_shift :=
      constraints.max_consecutive_hours_per_shift.getD 12
    match _create_business_coverage_plan operating_hours min_staff max_staff
        min_consecutive_hours_per_shift max_consecutive_hours_per_shift
        (constraints.require_manager_coverage.getD true) d with
    | none => none
    | some shift_templates =>
      let st0 : LedgerState :=
        { schedules := [], shift_count := fun _ => 0, weekly_hours := fun _ => 0,
          consec_days := fun _ => 0, last_day := fun _ => none, rng := rng }
      let numDays := (end_date - start_date + 1).toNat
      match fallbackLoop employees constraints numDays start_date shift_templates st0 with
      | none => none
      | some none => some []
      | some (some st) => some st.schedules

/-! ## `_relax_constraints` (scheduler.py lines 1353–1390) -/

/-- `_relax_constraints`.  The `solver_time_limit` entry it also sets is
never read back (the solver budget is fixed at 30 s) and is not modelled. -/
def _relax_constraints (constraints : ConstraintDoc) : ConstraintDoc :=
  let relaxed := { constraints with
    min_employees_per_day := some (max 1 (constraints.min_employees_per_day.getD 1 - 1)),
    max_employees_per_day := some (constraints.max_employees_per_day.getD 10 + 2),
    max_consecutive_days := some (min 7 (constraints.max_consecutive_days.getD 6 + 1)),
    min_rest_hours_between_shifts :=
      some (max 8 (constraints.min_rest_hours_between_shifts.getD 8 - 2)),
    max_hours_per_week := some (constraints.max_hours_per_week.getD 40 + 8) }
  let relaxed_hours := (constraints.operating_hours.getD []).map (fun oh =>
    if oh.min_staff > 1 then { oh with min_staff := oh.min_staff - 1 } else oh)
  { relaxed with operating_hours := some relaxed_hours }

/-! ## Optimizer path and `generate_schedule`
(scheduler.py lines 837–1350 and 1551–1737) -/

/-- The sort key of lines 1336–1345 (used on the optimizer path and on the
exception-fallback path): `(date, startTime, endTime, employeeName)`.
`schedule.get("employeeName", "")` is `""` for every record the engine
builds — no creation site writes that key — so the quaternary component
never differentiates and is omitted from the key. -/
def scheduleSortKey (s : Assignment) : Int ×ₗ (Int ×ₗ Int) :=
  toLex (s.date, toLex (s.startTime, s.endTime))

/-- `_advanced_ortools_schedule`, abstracted over the CP-SAT solve: the
model build and solve (lines 846–1333) are an external solver run, modelled
by an oracle `solverResult` (`none` = an exception inside the attempt,
`some []` = no feasible solution, `some l` = the assignments built from a
solution).  The concluding in-Python sort of lines 1335–1350 is embedded. -/
def _advanced_ortools_schedule (solverResult : Option (List Assignment)) :
    Option (List Assignment) :=
  solverResult.map (sortByKey scheduleSortKey)

/-- The `except` handler of lines 1690–1737: record the failure, run the
fallback, sort its output with the same key, and swallow any fallback
exception into an empty result. -/
def generateExceptPath (filtered : List Employee) (enhanced : ConstraintDoc)
    (start_date end_date : Int) (cb : CircuitBreaker) (now : Int)
    (dFall : Int) (rng : List Nat) : Option (List Assignment) × CircuitBreaker :=
  let cbF := cb.record_failure now
  match _basic_random_schedule filtered enhanced start_date end_date dFall rng with
  | none => (some [], cbF)  -- lines 1733–1737: inner except returns []
  | some schedules => (some (sortByKey scheduleSortKey schedules), cbF)

/-- `generate_schedule`.  Extra parameters model the environment: the
global circuit breaker `cb` and the clock `now`; `ortoolsAvailable` is the
module flag `_ORTOOLS_AVAILABLE`; `solve1`/`solve2` are the CP-SAT oracle
results of the first and the relaxed attempt; `dNorm`/`dFall` are the
coverage planner's duration draws inside the normalizer and the fallback;
`rng` is the fallback's choice stream.  Returns the result (`none` = the
call raises) and the breaker afterwards.  The compliance validation calls
(lines 1664–1674, 1719–1730) only print and swallow their own errors —
they affect neither the returned list nor the breaker — and are omitted. -/
def generate_schedule (employees : List Employee) (constraints : ConstraintDoc)
    (start_date end_date : Int) (cb : CircuitBreaker) (now : Int)
    (ortoolsAvailable : Bool) (solve1 solve2 : Option (List Assignment))
    (dNorm dFall : Int) (rng : List Nat) :
    Option (List Assignment) × CircuitBreaker :=
  -- lines 1576–1582: constraint-criteria filter first, short-circuit on empty
  let constraint_filtered_employees := _filter_employees_by_constraints employees constraints
  if constraint_filtered_employees.isEmpty then (some [], cb)
  else
    -- lines 1584–1587: "TEMPORARY" debugging reset of an OPEN breaker
    let cb1 := if cb.state = CBState.open then reset_scheduler_circuit_breaker cb else cb
    match _ensure_constraint_defaults constraints dNorm with
    | none => (none, cb1)  -- the planner's exception propagates
    | some (enhanced0, _) =>
      let conflict_analysis := detect_scheduling_conflicts enhanced0
        constraint_filtered_employees start_date end_date
      -- lines 1604–1631 (the post-resolution re-validation call only prints)
      let enhanced :=
        if conflict_analysis.conflict_count > 0 then
          _resolve_scheduling_conflicts_automatically enhanced0
            constraint_filtered_employees conflict_analysis.conflicts
        else enhanced0
      -- line 1634: circuit breaker gate
      let gate := cb1.can_execute now
      let cb2 := gate.2
      if ¬ gate.1 then
        match _basic_random_schedule constraint_filtered_employees enhanced
            start_date end_date dFall rng with
        | none => (none, cb2)
        | some schedules => (some schedules, cb2)
      else
      -- lines 1640–1647: lenient validation, fallback on any error (unsorted)
      if ¬ (validate_constraints enhanced).isEmpty then
        match _basic_random_schedule constraint_filtered_employees enhanced
            start_date end_date dFall rng with
        | none => (none, cb2)
        | some schedules => (some schedules, cb2)
      else
      -- lines 1649–1653: OR-Tools unavailable, fallback (unsorted)
      if ¬ ortoolsAvailable then
        match _basic_random_schedule constraint_filtered_employees enhanced
            start_date end_date dFall rng with
        | none => (none, cb2)
        | some schedules => (some schedules, cb2)
      else
        -- lines 1655–1737: try the optimizer, then relaxed retry, then fallback
        match _advanced_ortools_schedule solve1 with
        | none =>
          generateExceptPath constraint_filtered_employees enhanced
            start_date end_date cb2 now dFall rng
        | some schedules1 =>
          if ¬ schedules1.isEmpty then
            (some schedules1, cb2.record_success)
          else
            let relaxed_constraints := _relax_constraints enhanced
            -- the relaxed attempt's solve is the `solve2` oracle run against
            -- `relaxed_constraints`
            let _ := relaxed_constraints
            match _advanced_ortools_schedule solve2 with
            | none =>
              generateExceptPath constraint_filtered_employees enhanced
                start_date end_date cb2 now dFall rng
            | some schedules2 =>
              if ¬ schedules2.isEmpty then
                (some schedules2, cb2.record_success)
              else
                -- line 1688: `raise Exception(...)`, caught by line 1690
                generateExceptPath constraint_filtered_employees enhanced
                  start_date end_date cb2 now dFall rng

/-! ## Concrete scenario inputs

Fixed documents, rosters and runs used by the counterexamples, witnesses
and scenario theorems below.  Dates: day number 0 is a Monday, whose
Sunday = 0 `day_of_week` is 1. -/

/-- An operating-hours entry with business hours 09:00–21:00. -/
def mkDay921 (dw : Int) (op : Bool) (mn mx : Int) : DayHours :=
  { day_of_week := dw, is_open := op, open_time := 9, close_time := 21,
    min_staff := mn, max_staff := mx }

/-- An operating-hours entry with business hours 09:00–17:00. -/
def mkDay917 (dw : Int) (op : Bool) (mn mx : Int) : DayHours :=
  { day_of_week := dw, is_open := op, open_time := 9, close_time := 17,
    min_staff := mn, max_staff := mx }

def empMgr : Employee :=
  { _id := "m1", firstName := "Ava", role := "manager",
    department := "Operations", location := "L" }

def empWorker : Employee :=
  { _id := "e1", firstName := "Ben", role := "employee",
    department := "Operations", location := "L" }

def empSup1 : Employee :=
  { _id := "s1", firstName := "Cam", role := "supervisor",
    department := "Operations", location := "L" }

def empSup2 : Employee :=
  { _id := "s2", firstName := "Dee", role := "supervisor",
    department := "Operations", location := "L" }

/-- Monday open 09:00–21:00 with min = max staff `n`, all other days
closed; 9-hour shift-duration bounds (pinning the planner draw to 9). -/
def docMonday921 (n : Int) : ConstraintDoc :=
  { operating_hours := some [mkDay921 0 false 0 0, mkDay921 1 true n n,
      mkDay921 2 false 0 0, mkDay921 3 false 0 0, mkDay921 4 false 0 0,
      mkDay921 5 false 0 0, mkDay921 6 false 0 0],
    shift_templates := some [standardShiftTemplate],
    departments := some ["Operations"],
    max_consecutive_days := some 6,
    min_rest_hours_between_shifts := some 8,
    max_hours_per_week := some 40,
    min_consecutive_hours_per_shift := some 9,
    max_consecutive_hours_per_shift := some 9,
    optimization_priority := some "balance_staffing",
    require_manager_coverage := some true }

/-- The C1 run: a mixed roster (one manager, one employee, two
supervisors), Monday min = max staff 4, one day, OR-Tools unavailable. -/
def c1Run : Option (List Assignment) :=
  (generate_schedule [empMgr, empWorker, empSup1, empSup2] (docMonday921 4)
    0 0 {} 0 false none none 9 9 []).1

/-- The C6 run: roster ids out of order ("z" before "a"), Monday
min = max staff 2, one day, OR-Tools unavailable. -/
def c6Run : Option (List Assignment) :=
  (generate_schedule [{ empMgr with _id := "z" }, { empWorker with _id := "a" }]
    (docMonday921 2) 0 0 {} 0 false none none 9 9 []).1

/-- An open breaker that tripped at time 100 (threshold 3, timeout 60). -/
def cbOpenAt100 : CircuitBreaker :=
  { failure_threshold := 3, recovery_timeout := 60, failure_count := 3,
    last_failure_time := some 100, state := CBState.open }

/-- The C5 scenario document: Monday open 09:00–17:00 with min staff 3 and
max staff 5, all other days closed. -/
def docC5 : ConstraintDoc :=
  { operating_hours := some [mkDay917 0 false 0 0, mkDay917 1 true 3 5,
      mkDay917 2 false 0 0, mkDay917 3 false 0 0, mkDay917 4 false 0 0,
      mkDay917 5 false 0 0, mkDay917 6 false 0 0],
    shift_templates := some [standardShiftTemplate],
    max_consecutive_days := some 6 }

/-- The C5 roster: exactly two active matching employees. -/
def empsC5 : List Employee := [empWorker, { empWorker with _id := "e2" }]

/-- All 7 days closed with a 3-hour span (09:00–12:00): the planner's
short-day path raises. -/
def docAllClosed912 : ConstraintDoc :=
  { operating_hours := some ((List.range 7).map (fun i =>
      { day_of_week := (i : Int), is_open := false, open_time := 9,
        close_time := 12, min_staff := 1, max_staff := 2 })),
    shift_templates := some [standardShiftTemplate] }

/-- All 7 days closed with an 8-hour span (09:00–17:00). -/
def docAllClosed917 : ConstraintDoc :=
  { operating_hours := some ((List.range 7).map (fun i =>
      { day_of_week := (i : Int), is_open := false, open_time := 9,
        close_time := 17, min_staff := 1, max_staff := 2 })),
    shift_templates := some [standardShiftTemplate] }

/-- A document carrying a single operating-hours entry (and explicit shift
templates, so the normalizer generates none). -/
def docOneDay : ConstraintDoc :=
  { operating_hours := some [mkDay917 1 true 2 2],
    shift_templates := some [standardShiftTemplate] }

/-! ## Auxiliary `List.min?` / `List.max?` facts -/

theorem min?_spec : ∀ (l : List Int) (a : Int), l.min? = some a →
    a ∈ l ∧ ∀ b ∈ l, a ≤ b := by
  intro l
  induction l with
  | nil => intro a h; simp [List.min?] at h
  | cons x xs ih =>
    intro a h
    rw [List.min?_cons] at h
    cases hxs : xs.min? with
    | none =>
      rw [hxs] at h
      simp only [Option.elim] at h
      have hx : a = x := (Option.some.inj h).symm
      subst hx
      have hempty : xs = [] := by
        cases xs with
        | nil => rfl
        | cons y ys => rw [List.min?_cons] at hxs; exact absurd hxs (by simp)
      subst hempty
      exact ⟨List.mem_cons_self a [], by intro b hb; simp at hb; simp [hb]⟩
    | some m =>
      rw [hxs] at h
      simp only [Option.elim] at h
      have ha : a = min x m := (Option.some.inj h).symm
      obtain ⟨hmem, hle⟩ := ih m hxs
      subst ha
      constructor
      · rcases le_total x m with hxm | hmx
        · rw [min_eq_left hxm]; exact List.mem_cons_self x xs
        · rw [min_eq_right hmx]; exact List.mem_cons_of_mem x hmem
      · intro b hb
        rcases List.mem_cons.mp hb with rfl | hb
        · exact min_le_left _ _
        · exact le_trans (min_le_right x m) (hle b hb)

theorem max?_spec : ∀ (l : List Int) (a : Int), l.max? = some a →
    a ∈ l ∧ ∀ b ∈ l, b ≤ a := by
  intro l
  induction l with
  | nil => intro a h; simp [List.max?] at h
  | cons x xs ih =>
    intro a h
    rw [List.max?_cons] at h
    cases hxs : xs.max? with
    | none =>
      rw [hxs] at h
      simp only [Option.elim] at h
      have hx : a = x := (Option.some.inj h).symm
      subst hx
      have hempty : xs = [] := by
        cases xs with
        | nil => rfl
        | cons y ys => rw [List.max?_cons] at hxs; exact absurd hxs (by simp)
      subst hempty
      exact ⟨List.mem_cons_self a [], by intro b hb; simp at hb; simp [hb]⟩
    | some m =>
      rw [hxs] at h
      simp only [Option.elim] at h
      have ha : a = max x m := (Option.some.inj h).symm
      obtain ⟨hmem, hle⟩ := ih m hxs
      subst ha
      constructor
      · rcases le_total x m with hxm | hmx
        · rw [max_eq_right hxm]; exact List.mem_cons_of_mem x hmem
        · rw [max_eq_left hmx]; exact List.mem_cons_self x xs
      · intro b hb
        rcases List.mem_cons.mp hb with rfl | hb
        · exact le_max_left _ _
        · exact le_trans (hle b hb) (le_max_right x m)

theorem min?_isSome_of_ne_nil (l : List Int) (h : l ≠ []) : ∃ a, l.min? = some a := by
  cases l with
  | nil => exact absurd rfl h
  | cons x xs => exact ⟨_, List.min?_cons⟩

theorem max?_isSome_of_ne_nil (l : List Int) (h : l ≠ []) : ∃ a, l.max? = some a := by
  cases l with
  | nil => exact absurd rfl h
  | cons x xs => exact ⟨_, List.max?_cons⟩

/-! ## Claim C10: `calculate_shift_hours` totality -/

theorem parseHM_bounds (s : String) (hv mv : Nat) (hp : parseHM s = some (hv, mv)) :
    hv ≤ 23 ∧ mv ≤ 59 := by
  unfold parseHM at hp
  split at hp
  · split at hp
    · split at hp
      · rename_i hb
        obtain ⟨h1, h2⟩ := Prod.mk.injEq .. ▸ Option.some.inj hp
        exact ⟨h1 ▸ hb.1, h2 ▸ hb.2⟩
      · exact absurd hp (by simp)
    · exact absurd hp (by simp)
  · exact absurd hp (by simp)

/-- Claim C10 (confirmed): `calculate_shift_hours` is total and never
raises; it returns a non-negative value; when both inputs parse as HH:MM
times and the end is earlier than the start the shift is treated as
crossing midnight (24 hours minus the backward difference); and any
unparseable input yields 0.0 instead of an exception. -/
theorem calculate_shift_hours_total (start_time end_time : String) :
    0 ≤ calculate_shift_hours start_time end_time ∧
    (∀ sh sm eh em : Nat, parseHM start_time = some (sh, sm) →
      parseHM end_time = some (eh, em) →
      (eh : Int) * 60 + em < (sh : Int) * 60 + sm →
      calculate_shift_hours start_time end_time =
        24 - ((((sh : Int) * 60 + sm) - ((eh : Int) * 60 + em) : Int) : ℚ) / 60) ∧
    ((parseHM start_time = none ∨ parseHM end_time = none) →
      calculate_shift_hours start_time end_time = 0) := by
  unfold calculate_shift_hours
  cases hs : parseHM start_time with
  | none =>
    refine ⟨le_refl 0, ?_, fun _ => rfl⟩
    intro sh sm eh em hps _ _
    exact absurd hps (by simp)
  | some p =>
    obtain ⟨sh0, sm0⟩ := p
    cases ht : parseHM end_time with
    | none =>
      refine ⟨le_refl 0, ?_, fun _ => rfl⟩
      intro sh sm eh em _ hpt _
      exact absurd hpt (by simp)
    | some q =>
      obtain ⟨eh0, em0⟩ := q
      dsimp only
      have hsb := parseHM_bounds start_time sh0 sm0 hs
      have hs_ub : (sh0 : Int) * 60 + sm0 ≤ 1439 := by
        have h1 : (sh0 : Int) ≤ 23 := by exact_mod_cast hsb.1
        have h2 : (sm0 : Int) ≤ 59 := by exact_mod_cast hsb.2
        omega
      have he_lb : (0 : Int) ≤ (eh0 : Int) * 60 + em0 := by positivity
      refine ⟨?_, ?_, ?_⟩
      · -- non-negativity
        split
        · rename_i hlt
          apply div_nonneg _ (by norm_num)
          have hnum : (0 : Int) ≤ (eh0 : Int) * 60 + em0 + 24 * 60 -
              ((sh0 : Int) * 60 + sm0) := by omega
          exact_mod_cast hnum
        · rename_i hge
          apply div_nonneg _ (by norm_num)
          have hnum : (0 : Int) ≤ (eh0 : Int) * 60 + em0 - ((sh0 : Int) * 60 + sm0) := by
            omega
          exact_mod_cast hnum
      · -- the overnight case
        intro sh sm eh em hps hpt hlt
        obtain ⟨hsh, hsm⟩ := Prod.mk.injEq .. ▸ Option.some.inj hps
        obtain ⟨heh, hem⟩ := Prod.mk.injEq .. ▸ Option.some.inj hpt
        subst hsh; subst hsm; subst heh; subst hem
        rw [if_pos (by exact_mod_cast hlt)]
        have hcast : (((eh0 : Int) * 60 + em0 + 24 * 60 - ((sh0 : Int) * 60 + sm0) : Int) : ℚ) =
            1440 - ((((sh0 : Int) * 60 + sm0) - ((eh0 : Int) * 60 + em0) : Int) : ℚ) := by
          push_cast
          ring
        rw [hcast]
        field_simp
        ring
      · intro h
        rcases h with h | h
        · exact absurd h (by simp)
        · exact absurd h (by simp)

/-- Witness for C10 at concrete inputs: "23:00"→"01:00" crosses midnight
(2 = 24 − 22 hours), and an unparseable start yields 0. -/
theorem calculate_shift_hours_total_witness :
    0 ≤ calculate_shift_hours "23:00" "01:00" ∧
    calculate_shift_hours "23:00" "01:00" =
      24 - ((((23 : Int) * 60 + 0) - ((1 : Int) * 60 + 0) : Int) : ℚ) / 60 ∧
    calculate_shift_hours "late" "01:00" = 0 :=
  ⟨(calculate_shift_hours_total "23:00" "01:00").1,
   (calculate_shift_hours_total "23:00" "01:00").2.1 23 0 1 0 (by decide) (by decide)
     (by decide),
   (calculate_shift_hours_total "late" "01:00").2.2 (Or.inl (by decide))⟩

/-! ## Claim C3: resilience gate -/

/-- A sequence of `record_failure` calls at the given timestamps. -/
def recordFailures (cb : CircuitBreaker) (ts : List Int) : CircuitBreaker :=
  ts.foldl CircuitBreaker.record_failure cb

theorem record_failure_fields (cb : CircuitBreaker) (t : Int) :
    (cb.record_failure t).failure_count = cb.failure_count + 1 ∧
    (cb.record_failure t).failure_threshold = cb.failure_threshold := by
  unfold CircuitBreaker.record_failure
  dsimp only
  split <;> exact ⟨rfl, rfl⟩

theorem recordFailures_closed (ts : List Int) : ∀ cb : CircuitBreaker,
    cb.state = CBState.closed →
    cb.failure_count + ts.length < cb.failure_threshold →
    (recordFailures cb ts).state = CBState.closed := by
  induction ts with
  | nil => intro cb h _; exact h
  | cons t rest ih =>
    intro cb hst hlt
    have hf := record_failure_fields cb t
    have hst' : (cb.record_failure t).state = CBState.closed := by
      unfold CircuitBreaker.record_failure
      dsimp only
      rw [if_neg]
      · exact hst
      · simp only [List.length_cons] at hlt
        omega
    have := ih (cb.record_failure t) hst' (by rw [hf.1, hf.2]; simp only [List.length_cons] at hlt; omega)
    simpa [recordFailures] using this

theorem recordFailures_open (ts : List Int) : ∀ cb : CircuitBreaker,
    ts ≠ [] →
    cb.failure_threshold ≤ cb.failure_count + ts.length →
    (recordFailures cb ts).state = CBState.open := by
  induction ts with
  | nil => intro cb h _; exact absurd rfl h
  | cons t rest ih =>
    intro cb _ hge
    have hf := record_failure_fields cb t
    cases rest with
    | nil =>
      show (cb.record_failure t).state = CBState.open
      unfold CircuitBreaker.record_failure
      dsimp only
      rw [if_pos]
      simp only [List.length_cons, List.length_nil] at hge
      omega
    | cons t2 rest2 =>
      have := ih (cb.record_failure t) (by simp) (by
        rw [hf.1, hf.2]
        simp only [List.length_cons] at hge ⊢
        omega)
      simpa [recordFailures] using this

/-- Claim C3, amended: (i) from Closed with a zero count, `failure_threshold`
consecutive `record_failure` calls flip the state to Open, and any shorter
run leaves it Closed; (ii) `record_success` always moves to Closed (in
particular from Half-Open); (iii) while Open, `can_execute` causes no
transition (and refuses) unless strictly more than `recovery_timeout`
seconds have elapsed since the last failure; but (iv) — contrary to the
claim as stated — a generation call made while the gate is Open does not
leave it Open until the timeout: whenever the constraint filter leaves a
non-empty roster, `generate_schedule` immediately resets an Open breaker to
Closed (the "TEMPORARY" debugging reset at lines 1584–1587), shown here on
the OR-Tools-unavailable configuration where no later update follows. -/
theorem circuit_breaker_gate_behavior :
    (∀ (cb : CircuitBreaker) (ts : List Int),
      cb.state = CBState.closed → cb.failure_count = 0 →
      ((ts.length = cb.failure_threshold ∧ ts ≠ []) →
        (recordFailures cb ts).state = CBState.open) ∧
      (ts.length < cb.failure_threshold →
        (recordFailures cb ts).state = CBState.closed)) ∧
    (∀ cb : CircuitBreaker, cb.record_success.state = CBState.closed) ∧
    (∀ (cb : CircuitBreaker) (now lt : Int),
      cb.state = CBState.open → cb.last_failure_time = some lt →
      now - lt ≤ (cb.recovery_timeout : Int) →
      cb.can_execute now = (false, cb)) ∧
    (∀ (employees : List Employee) (constraints : ConstraintDoc)
      (start_date end_date : Int) (cb : CircuitBreaker) (now : Int)
      (solve1 solve2 : Option (List Assignment)) (dN dF : Int) (rng : List Nat),
      ¬ (_filter_employees_by_constraints employees constraints).isEmpty →
      cb.state = CBState.open →
      (generate_schedule employees constraints start_date end_date cb now
        false solve1 solve2 dN dF rng).2 = reset_scheduler_circuit_breaker cb) := by
  refine ⟨?_, ?_, ?_, ?_⟩
  · intro cb ts hst hc
    constructor
    · rintro ⟨hlen, hne⟩
      exact recordFailures_open ts cb hne (by omega)
    · intro hlt
      exact recordFailures_closed ts cb hst (by omega)
  · intro cb
    rfl
  · intro cb now lt hst hlast hle
    unfold CircuitBreaker.can_execute
    rw [hst]
    dsimp only
    rw [hlast]
    rw [if_neg]
    simp only [Option.getD_some]
    omega
  · intro employees constraints start_date end_date cb now solve1 solve2 dN dF rng hne hopen
    unfold generate_schedule
    rw [if_neg hne, if_pos hopen]
    have hreset : (reset_scheduler_circuit_breaker cb).state = CBState.closed := rfl
    cases hens : _ensure_constraint_defaults constraints dN with
    | none => rfl
    | some p =>
      obtain ⟨enhanced0, r0⟩ := p
      dsimp only
      have hgate : (reset_scheduler_circuit_breaker cb).can_execute now =
          (true, reset_scheduler_circuit_breaker cb) := by
        unfold CircuitBreaker.can_execute
        rw [hreset]
      rw [hgate]
      dsimp only
      rw [if_neg (by simp)]
      repeat' split
      all_goals first
        | rfl
        | simp_all

/-- Witness for C3: parts applied at concrete inputs — a threshold-3
breaker trips after exactly 3 failures and not after 2; a success closes a
half-open breaker; an open breaker refuses and keeps its state 10 seconds
after the last failure; and the C3 run's open breaker is reset by
`generate_schedule`. -/
theorem circuit_breaker_gate_behavior_witness :
    (recordFailures { } [5, 6, 7]).state = CBState.open ∧
    (recordFailures { } [5, 6]).state = CBState.closed ∧
    (CircuitBreaker.record_success { state := CBState.halfOpen }).state = CBState.closed ∧
    CircuitBreaker.can_execute cbOpenAt100 110 = (false, cbOpenAt100) ∧
    (generate_schedule [{ empMgr with _id := "z" }] (docMonday921 2) 0 0 cbOpenAt100 110
      false none none 9 9 []).2 = reset_scheduler_circuit_breaker cbOpenAt100 :=
  ⟨(circuit_breaker_gate_behavior.1 { } [5, 6, 7] rfl rfl).1 ⟨by decide, by decide⟩,
   (circuit_breaker_gate_behavior.1 { } [5, 6] rfl rfl).2 (by decide),
   circuit_breaker_gate_behavior.2.1 { state := CBState.halfOpen },
   circuit_breaker_gate_behavior.2.2.1 cbOpenAt100 110 100 rfl rfl (by decide),
   circuit_breaker_gate_behavior.2.2.2 [{ empMgr with _id := "z" }] (docMonday921 2)
     0 0 cbOpenAt100 110 none none 9 9 [] (by decide) rfl⟩

/-- Counterexample to C3 as stated: the gate is Open with 10 of its 60
timeout seconds elapsed, yet a generation call leaves it Closed, not Open. -/
theorem circuit_breaker_reset_counterexample :
    cbOpenAt100.state = CBState.open ∧
    (110 : Int) - 100 ≤ (cbOpenAt100.recovery_timeout : Int) ∧
    (generate_schedule [{ empMgr with _id := "z" }] (docMonday921 2) 0 0 cbOpenAt100 110
      false none none 9 9 []).2.state = CBState.closed := by
  refine ⟨rfl, by decide, ?_⟩
  decide

/-! ## Claim C4: business coverage planner template bounds -/

/-- Every stored `duration` of a staff shift equals end − start. -/
theorem planStaffFinish_fields (c mn mx req : Int) (i : Nat) (s e a : Int)
    (t : ShiftTemplate) (h : planStaffFinish c mn mx req i s e a = some t) :
    t.start_time = s ∧ t.end_time = e ∧ t.duration = a ∧
    mn ≤ a ∧ a ≤ mx ∧ s < c ∧ e ≤ c ∧
    (t.ttype = "opening_shift" ∨ t.ttype = "closing_shift" ∨ t.ttype = "mid_shift") := by
  unfold planStaffFinish at h
  split at h
  · exact absurd h (by simp)
  · split at h
    · rename_i hdur hbus
      have ht := Option.some.inj h
      subst ht
      refine ⟨rfl, rfl, rfl, by omega, by omega, hbus.1, hbus.2, ?_⟩
      dsimp only
      split
      · exact Or.inl rfl
      · split
        · exact Or.inr (Or.inl rfl)
        · exact Or.inr (Or.inr rfl)
    · exact absurd h (by simp)

theorem planStaffShift_dur (o c mn mx opt req : Int) (i : Nat) (t : ShiftTemplate)
    (h : planStaffShift o c mn mx opt req i = some t) :
    t.duration = t.end_time - t.start_time := by
  unfold planStaffShift at h
  dsimp only at h
  repeat' split at h
  all_goals first
    | (obtain ⟨h1, h2, h3, -⟩ := planStaffFinish_fields _ _ _ _ _ _ _ _ _ h; omega)
    | (simp at h)

/-- Every coverage manager shift's stored `duration` equals end − start. -/
theorem planCoverageManagerShifts_dur (o c mn mx : Int) (t : ShiftTemplate)
    (h : t ∈ planCoverageManagerShifts o c mn mx) :
    t.duration = t.end_time - t.start_time := by
  unfold planCoverageManagerShifts at h
  dsimp only at h
  rcases List.mem_append.mp h with h' | h'
  · rcases List.mem_append.mp h' with h'' | h''
    · split at h''
      · rcases List.mem_singleton.mp h'' with rfl; rfl
      · exact absurd h'' (by simp)
    · split at h''
      · rcases List.mem_singleton.mp h'' with rfl; rfl
      · exact absurd h'' (by simp)
  · split at h'
    · rcases List.mem_singleton.mp h' with rfl; rfl
    · exact absurd h' (by simp)

/-- The sequential manager-shift loop preserves the duration invariant. -/
theorem planSeqLoop_dur (c mn md : Int) : ∀ (fuel : Nat) (cur : Int)
    (acc out : List ShiftTemplate),
    (∀ t ∈ acc, t.duration = t.end_time - t.start_time) →
    planSeqLoop c mn md fuel cur acc = some out →
    ∀ t ∈ out, t.duration = t.end_time - t.start_time := by
  intro fuel
  induction fuel with
  | zero => intro cur acc out _ h; exact absurd h (by simp [planSeqLoop])
  | succ f ih =>
    intro cur acc out hacc h
    unfold planSeqLoop at h
    dsimp only at h
    split at h
    · split at h
      · refine ih _ _ _ ?_ h
        intro t ht
        rcases List.mem_append.mp ht with ht' | ht'
        · exact hacc t ht'
        · rcases List.mem_singleton.mp ht' with rfl; rfl
      · split at h
        · have hout := Option.some.inj h; subst hout; exact hacc
        · have hout := Option.some.inj h; subst hout
          intro t ht
          rcases List.mem_append.mp ht with ht' | ht'
          · exact hacc t (List.dropLast_subset _ ht')
          · rcases List.mem_singleton.mp ht' with rfl; rfl
    · have hout := Option.some.inj h; subst hout; exact hacc

/-- Sequential manager distribution: duration invariant (given the caller's
`total_hours = close − open`). -/
theorem planSeqManagerShifts_dur (o c tot mn mx : Int) (out : List ShiftTemplate)
    (htot : tot = c - o)
    (h : planSeqManagerShifts o c tot mn mx = some out) :
    ∀ t ∈ out, t.duration = t.end_time - t.start_time := by
  unfold planSeqManagerShifts at h
  dsimp only at h
  split at h
  · have hout := Option.some.inj h; subst hout
    intro t ht
    rcases List.mem_singleton.mp ht with rfl
    dsimp only
    omega
  · exact planSeqLoop_dur c mn _ _ _ _ out (by intro t ht; simp at ht) h

theorem planValidShift_iff (o c mn mx : Int) (s : ShiftTemplate) :
    planValidShift o c mn mx s = true ↔
      (o ≤ s.start_time ∧ s.end_time ≤ c ∧ mn ≤ s.duration ∧ s.duration ≤ mx) := by
  simp [planValidShift]

/-- Every template assembled by the planner tail lies within business
hours, its stored duration is end − start, and — except for the emergency
gap fillers — its duration is within the user bounds. -/
theorem planAssemble_spec (o c mn mx : Int) (shifts0 : List ShiftTemplate)
    (hmn : 0 ≤ mn)
    (hP0 : ∀ t ∈ shifts0, t.duration = t.end_time - t.start_time) :
    ∀ t ∈ planAssemble o c mn mx shifts0,
      o ≤ t.start_time ∧ t.end_time ≤ c ∧
      t.duration = t.end_time - t.start_time ∧
      (t.ttype ≠ "emergency_opening" → t.ttype ≠ "emergency_closing" →
        mn ≤ t.duration ∧ t.duration ≤ mx) := by
  intro t ht
  unfold planAssemble at ht
  dsimp only at ht
  set validated := shifts0.filter (planValidShift o c mn mx) with hvaldef
  have hvmem : ∀ u ∈ validated, u ∈ shifts0 ∧
      (o ≤ u.start_time ∧ u.end_time ≤ c ∧ mn ≤ u.duration ∧ u.duration ≤ mx) := by
    intro u hu
    have := List.mem_filter.mp hu
    exact ⟨this.1, (planValidShift_iff o c mn mx u).mp this.2⟩
  have hvdur : ∀ u ∈ validated, u.duration = u.end_time - u.start_time := by
    intro u hu
    exact hP0 u (hvmem u hu).1
  -- the coverage end never exceeds close
  have hce_le : ((validated.map (fun s => s.end_time)).max?).getD c ≤ c := by
    cases hmax : (validated.map (fun s => s.end_time)).max? with
    | none => simp
    | some m =>
      simp only [Option.getD_some]
      obtain ⟨hmem, -⟩ := max?_spec _ m hmax
      obtain ⟨u, hu, hue⟩ := List.mem_map.mp hmem
      exact hue ▸ (hvmem u hu).2.2.1
  rcases List.mem_append.mp ht with ht' | htc
  · rcases List.mem_append.mp ht' with hto | htv
    · -- emergency opening
      split at hto
      · rename_i hcs
        rcases List.mem_singleton.mp hto with rfl
        have hvne : validated ≠ [] := by
          intro hnil
          rw [hnil] at hcs
          simp at hcs
        have hcs_le : ((validated.map (fun s => s.start_time)).min?).getD o ≤ c := by
          cases hmin : (validated.map (fun s => s.start_time)).min? with
          | none =>
            exact absurd (List.map_eq_nil_iff.mp (by
              cases hmap : validated.map (fun s => s.start_time) with
              | nil => rfl
              | cons x xs => rw [hmap] at hmin; simp [List.min?_cons] at hmin)) hvne
          | some m =>
            simp only [Option.getD_some]
            obtain ⟨hmem, -⟩ := min?_spec _ m hmin
            obtain ⟨u, hu, hus⟩ := List.mem_map.mp hmem
            have hud := hvdur u hu
            have hb := (hvmem u hu).2
            omega
        refine ⟨le_refl o, hcs_le, rfl, ?_⟩
        intro habs _
        exact absurd rfl habs
      · exact absurd hto (by simp)
    · -- a validated shift (the clip branch never fires: coverage_end ≤ close)
      split at htv
      · rename_i hgt
        exact absurd hgt (not_lt.mpr hce_le)
      · obtain ⟨humem, hub⟩ := hvmem t htv
        exact ⟨hub.1, hub.2.1, hP0 t humem, fun _ _ => ⟨hub.2.2.1, hub.2.2.2⟩⟩
  · -- emergency closing
    split at htc
    · split at htc
      · rename_i hor hce
        rcases List.mem_singleton.mp htc with rfl
        have hvne : validated ≠ [] := by
          intro hnil
          rw [hnil] at hce
          simp at hce
        have hce_ge : o ≤ ((validated.map (fun s => s.end_time)).max?).getD c := by
          cases hmax : (validated.map (fun s => s.end_time)).max? with
          | none =>
            exact absurd (List.map_eq_nil_iff.mp (by
              cases hmap : validated.map (fun s => s.end_time) with
              | nil => rfl
              | cons x xs => rw [hmap] at hmax; simp [List.max?_cons] at hmax)) hvne
          | some m =>
            simp only [Option.getD_some]
            obtain ⟨hmem, -⟩ := max?_spec _ m hmax
            obtain ⟨u, hu, hue⟩ := List.mem_map.mp hmem
            have hud := hvdur u hu
            have hb := (hvmem u hu).2
            omega
        refine ⟨hce_ge, le_refl c, rfl, ?_⟩
        intro _ habs
        exact absurd rfl habs
      · exact absurd htc (by simp)
    · exact absurd htc (by simp)

/-! ## Claim C4: coverage-planner shift bounds -/

/-- C4 (amended).  For every completed run of the business coverage
planner, every returned shift template starts at or after the open hour,
ends at or before the close hour, and stores `duration = end − start`;
moreover every template other than the `emergency_opening` /
`emergency_closing` gap fillers has its duration within
`[min_shift_hours, max_shift_hours]`.  The original claim fails for the
gap fillers, see `C4_duration_bounds_counterexample`. -/
theorem C4_plan_within_bounds (fh : DayHours) (rest : List DayHours)
    (min_staff max_staff mn mx d : Int) (rmc : Bool) (plan : List ShiftTemplate)
    (hmn : 0 ≤ mn)
    (h : _create_business_coverage_plan (fh :: rest) min_staff max_staff mn mx rmc d
          = some plan) :
    ∀ t ∈ plan,
      fh.open_time ≤ t.start_time ∧ t.end_time ≤ fh.close_time ∧
      t.duration = t.end_time - t.start_time ∧
      (t.ttype ≠ "emergency_opening" → t.ttype ≠ "emergency_closing" →
        mn ≤ t.duration ∧ t.duration ≤ mx) := by
  unfold _create_business_coverage_plan at h
  dsimp only at h
  split at h
  · split at h
    · simp at h
    · split at h
      · simp at h
      · split at h
        · simp at h
        · rename_i found heqretry
          split at h
          · simp at h
          · rename_i seq heqseq
            have hp := Option.some.inj h
            subst hp
            refine planAssemble_spec _ _ _ _ _ hmn ?_
            intro u hu
            rcases List.mem_append.mp hu with h1 | h1
            · rcases List.mem_append.mp h1 with h2 | h2
              · rcases List.mem_append.mp h2 with h3 | h3
                · obtain ⟨i, -, hi⟩ := List.mem_filterMap.mp h3
                  exact planStaffShift_dur _ _ _ _ _ _ _ _ hi
                · split at h3
                  · exact planCoverageManagerShifts_dur _ _ _ _ _ h3
                  · simp at h3
              · exact planSeqManagerShifts_dur _ _ _ _ _ _ rfl heqseq u h2
            · split at h1
              · rcases List.mem_singleton.mp h1 with rfl
                rfl
              · simp at h1
  · simp at h

/-- C4 counterexample to the original claim: with business hours 9–21 and
duration bounds `min = max = 9`, the planner's returned list contains a
template (the `emergency_closing` gap filler covering 20:00–21:00) whose
duration `1` is below `min_consecutive_hours_per_shift = 9`. -/
theorem C4_duration_bounds_counterexample :
    (_create_business_coverage_plan [mkDay921 1 true 2 4] 2 4 9 9 true 9).map
      (fun l => l.any (fun t => decide (t.duration < 9))) = some true := by
  decide

/-- Witness for `C4_plan_within_bounds` at a concrete run. -/
theorem C4_plan_within_bounds_witness :
    (0 : Int) ≤ 9 ∧
    ((mkDay921 1 true 2 4).open_time ≤ ({ start_time := 9, end_time := 18, duration := 9, ttype := "opening_shift", required_roles := [("manager", 1), ("employee", 1)] } : ShiftTemplate).start_time ∧
      ({ start_time := 9, end_time := 18, duration := 9, ttype := "opening_shift", required_roles := [("manager", 1), ("employee", 1)] } : ShiftTemplate).end_time ≤ (mkDay921 1 true 2 4).close_time ∧
      ({ start_time := 9, end_time := 18, duration := 9, ttype := "opening_shift", required_roles := [("manager", 1), ("employee", 1)] } : ShiftTemplate).duration = ({ start_time := 9, end_time := 18, duration := 9, ttype := "opening_shift", required_roles := [("manager", 1), ("employee", 1)] } : ShiftTemplate).end_time - ({ start_time := 9, end_time := 18, duration := 9, ttype := "opening_shift", required_roles := [("manager", 1), ("employee", 1)] } : ShiftTemplate).start_time ∧
      (({ start_time := 9, end_time := 18, duration := 9, ttype := "opening_shift", required_roles := [("manager", 1), ("employee", 1)] } : ShiftTemplate).ttype ≠ "emergency_opening" →
        ({ start_time := 9, end_time := 18, duration := 9, ttype := "opening_shift", required_roles := [("manager", 1), ("employee", 1)] } : ShiftTemplate).ttype ≠ "emergency_closing" →
        (9 : Int) ≤ ({ start_time := 9, end_time := 18, duration := 9, ttype := "opening_shift", required_roles := [("manager", 1), ("employee", 1)] } : ShiftTemplate).duration ∧
          ({ start_time := 9, end_time := 18, duration := 9, ttype := "opening_shift", required_roles := [("manager", 1), ("employee", 1)] } : ShiftTemplate).duration ≤ 9)) :=
  ⟨by decide,
   C4_plan_within_bounds (mkDay921 1 true 2 4) [] 2 4 9 9 9 true
     ((_create_business_coverage_plan [mkDay921 1 true 2 4] 2 4 9 9 true 9).getD [])
     (by decide) (by decide) _ (by decide)⟩

/-! ## Claim C8: normalizer idempotence — helper lemmas -/

/-- Block 2 leaves every weekday covered. -/
theorem ensureOperatingHoursBlock2_covers (oh : List DayHours) :
    ∀ day ∈ List.range 7,
      (ensureOperatingHoursBlock2 oh).any (fun dh => dh.day_of_week = (day : Int)) = true := by
  intro day hday
  unfold ensureOperatingHoursBlock2
  split
  · simp only [List.any_eq_true, List.mem_map]
    exact ⟨defaultClosedDay1 day, ⟨day, hday, rfl⟩, by simp [defaultClosedDay1]⟩
  · dsimp only
    rw [List.any_append]
    cases hcv : oh.any (fun dh => dh.day_of_week = (day : Int)) with
    | true => simp
    | false =>
      simp only [Bool.false_or, List.any_eq_true, List.mem_map]
      refine ⟨defaultClosedDay1 day, ⟨day, ?_, rfl⟩, by simp [defaultClosedDay1]⟩
      simp only [List.mem_filter]
      refine ⟨hday, ?_⟩
      simp
      intro x hx
      have := List.any_eq_false.mp hcv x hx
      simpa using this

/-- A list covering all seven weekdays has at least seven entries. -/
theorem coveredWeek_length (oh : List DayHours)
    (hcov : ∀ day ∈ List.range 7,
      oh.any (fun dh => dh.day_of_week = (day : Int)) = true) :
    7 ≤ oh.length := by
  have hsub : (Finset.range 7).image (fun n : Nat => (n : Int)) ⊆
      (oh.map (fun dh => dh.day_of_week)).toFinset := by
    intro y hy
    obtain ⟨n, hn, rfl⟩ := Finset.mem_image.mp hy
    have := hcov n (List.mem_range.mpr (Finset.mem_range.mp hn))
    obtain ⟨dh, hdh, hdw⟩ := List.any_eq_true.mp this
    rw [List.mem_toFinset, List.mem_map]
    exact ⟨dh, hdh, by simpa using hdw⟩
  have hcard : ((Finset.range 7).image (fun n : Nat => (n : Int))).card = 7 := by
    rw [Finset.card_image_of_injective _ (fun a b => by exact_mod_cast id)]
    exact Finset.card_range 7
  calc 7 = ((Finset.range 7).image (fun n : Nat => (n : Int))).card := hcard.symm
    _ ≤ (oh.map (fun dh => dh.day_of_week)).toFinset.card := Finset.card_le_card hsub
    _ ≤ (oh.map (fun dh => dh.day_of_week)).length := List.toFinset_card_le _
    _ = oh.length := List.length_map _ _

/-- Block 2 always returns at least seven entries. -/
theorem ensureOperatingHoursBlock2_length (oh : List DayHours) :
    7 ≤ (ensureOperatingHoursBlock2 oh).length :=
  coveredWeek_length _ (ensureOperatingHoursBlock2_covers oh)

/-- Block 2 is the identity on a list that already covers the week. -/
theorem ensureOperatingHoursBlock2_idem (oh : List DayHours)
    (hcov : ∀ day ∈ List.range 7,
      oh.any (fun dh => dh.day_of_week = (day : Int)) = true) :
    ensureOperatingHoursBlock2 oh = oh := by
  have hne : oh ≠ [] := by
    intro hnil
    have := hcov 0 (by decide)
    rw [hnil] at this
    simp at this
  unfold ensureOperatingHoursBlock2
  rw [if_neg (by simpa using hne)]
  dsimp only
  have hmiss : (List.range 7).filter
      (fun (day : Nat) => ¬ oh.any (fun dh => dh.day_of_week = (day : Int))) = [] := by
    rw [List.filter_eq_nil]
    intro day hday
    simp [hcov day hday]
  rw [hmiss]
  simp

/-- Block 1 is the identity on a list with at least seven entries. -/
theorem ensureOperatingHoursBlock1_eq_of_length (oh : List DayHours)
    (hlen : 7 ≤ oh.length) : ensureOperatingHoursBlock1 oh = oh := by
  unfold ensureOperatingHoursBlock1
  rw [if_neg (by omega)]

/-- Block 1 never returns an empty list. -/
theorem ensureOperatingHoursBlock1_ne_nil (oh : List DayHours) :
    ensureOperatingHoursBlock1 oh ≠ [] := by
  unfold ensureOperatingHoursBlock1
  split
  · intro hnil
    dsimp only at hnil
    have hperm := sortByKey_perm (fun dh : DayHours => dh.day_of_week)
      (oh ++ (((List.range 7).filter
        (fun (day : Nat) => ¬ oh.any (fun dh => dh.day_of_week = (day : Int)))).map
          (fun (day : Nat) => defaultClosedDay0 (day : Int))))
    rw [hnil] at hperm
    have hlen := hperm.length_eq
    cases hoh : oh with
    | cons x xs => rw [hoh] at hlen; simp at hlen
    | nil =>
      rw [hoh] at hlen
      exact absurd hlen (by decide)
  · intro hnil
    rename_i hlt
    rw [hnil] at hlt
    simp at hlt

/-- Membership in the `range(a, b)` embedding. -/
theorem mem_intRange (a b x : Int) : x ∈ intRange a b ↔ a ≤ x ∧ x < b := by
  unfold intRange
  simp only [List.mem_map, List.mem_range]
  constructor
  · rintro ⟨i, hi, rfl⟩
    omega
  · intro hx
    exact ⟨(x - a).toNat, by omega, by omega⟩

/-- The retry loop returns normally when no probed duration is zero. -/
theorem planRetryFind_isSome (total : Int) : ∀ (probes : List Int),
    (∀ x ∈ probes, x ≠ 0) → ∃ found, planRetryFind total probes = some found := by
  intro probes
  induction probes with
  | nil => exact fun _ => ⟨none, rfl⟩
  | cons dur rest ih =>
    intro hall
    unfold planRetryFind
    rw [if_neg (hall dur (by simp))]
    dsimp only
    split
    · exact ⟨some (dur, max 2 (Int.tdiv total dur + 1)), rfl⟩
    · exact ih (fun x hx => hall x (by simp [hx]))

/-- A successful retry probe comes from the probed range and carries the
recomputed shift count. -/
theorem planRetryFind_spec (total : Int) : ∀ (probes : List Int) (q : Int × Int),
    planRetryFind total probes = some (some q) →
    q.1 ∈ probes ∧ q.2 = max 2 (Int.tdiv total q.1 + 1) := by
  intro probes
  induction probes with
  | nil => intro q h; simp [planRetryFind] at h
  | cons dur rest ih =>
    intro q h
    unfold planRetryFind at h
    split at h
    · simp at h
    · dsimp only at h
      split at h
      · have h1 := Option.some.inj h
        have h2 := Option.some.inj h1
        subst h2
        exact ⟨by simp, rfl⟩
      · obtain ⟨h1, h2⟩ := ih q h
        exact ⟨by simp [h1], h2⟩

/-- When the window is shorter than the minimum shift length, every staff
shift iteration is skipped. -/
theorem planStaffShift_none_of_short (o c mn mx opt req : Int) (i : Nat)
    (hopt : mn ≤ opt) (hshort : c - o < mn) (h0 : 0 ≤ c - o) :
    planStaffShift o c mn mx opt req i = none := by
  have hio : 0 ≤ (i : Int) * opt :=
    mul_nonneg (Int.natCast_nonneg i) (by omega)
  unfold planStaffShift
  dsimp only
  rw [if_pos (by omega)]
  unfold planStaffFinish
  rw [if_pos (Or.inl (by omega))]

/-- When the window is at least the minimum shift length, the first staff
shift iteration produces a template that survives validation. -/
theorem planStaffShift_zero_some (o c mn mx opt req : Int)
    (h6 : 6 ≤ c - o) (hmn : mn ≤ c - o) (ho1 : mn ≤ opt) (ho2 : opt ≤ mx)
    (hreq : 2 ≤ req) :
    ∃ t, planStaffShift o c mn mx opt req 0 = some t ∧
      planValidShift o c mn mx t = true := by
  unfold planStaffShift
  dsimp only
  simp only [Nat.cast_zero, zero_mul, add_zero]
  by_cases hbig : o + opt > c
  · rw [if_pos hbig]
    unfold planStaffFinish
    rw [if_neg (by omega)]
    rw [if_pos (by omega)]
    refine ⟨_, rfl, (planValidShift_iff _ _ _ _ _).mpr ?_⟩
    dsimp only
    exact ⟨by omega, by omega, by omega, by omega⟩
  · rw [if_neg hbig]
    rw [if_neg (by rintro ⟨h1, -⟩; omega)]
    unfold planStaffFinish
    rw [if_neg (by omega)]
    rw [if_pos (by omega)]
    refine ⟨_, rfl, (planValidShift_iff _ _ _ _ _).mpr ?_⟩
    dsimp only
    exact ⟨by omega, by omega, by omega, by omega⟩

/-- In a short window every coverage manager shift is shorter than the
minimum shift length. -/
theorem planCoverageManagerShifts_short (o c mn mx : Int) (t : ShiftTemplate)
    (h6 : 6 ≤ c - o) (hshort : c - o < mn) (hmm : mn ≤ mx)
    (ht : t ∈ planCoverageManagerShifts o c mn mx) :
    t.duration < mn := by
  unfold planCoverageManagerShifts at ht
  dsimp only at ht
  rcases List.mem_append.mp ht with h' | h'
  · rcases List.mem_append.mp h' with h'' | h''
    · split at h''
      · rcases List.mem_singleton.mp h'' with rfl
        dsimp only
        omega
      · exact absurd h'' (by simp)
    · split at h''
      · rcases List.mem_singleton.mp h'' with rfl
        dsimp only
        omega
      · exact absurd h'' (by simp)
  · split at h'
    · rcases List.mem_singleton.mp h' with rfl
      dsimp only
      omega
    · exact absurd h' (by simp)

/-- In a short window the sequential distribution emits the single
full-day manager shift. -/
theorem planSeqManagerShifts_short (o c mn mx : Int)
    (hshort : c - o < mn) (hmm : mn ≤ mx) :
    planSeqManagerShifts o c (c - o) mn mx =
      some [{ start_time := o, end_time := c, duration := c - o,
              ttype := "full_day_manager", required_roles := [("manager", 1)] }] := by
  unfold planSeqManagerShifts
  dsimp only
  rw [if_pos (by omega)]

/-- No shift shorter than the minimum survives validation. -/
theorem filter_valid_nil (o c mn mx : Int) (l : List ShiftTemplate)
    (hall : ∀ t ∈ l, t.duration < mn) :
    l.filter (planValidShift o c mn mx) = [] := by
  rw [List.filter_eq_nil]
  intro t ht hv
  have := (planValidShift_iff o c mn mx t).mp hv
  have := hall t ht
  omega

/-- The assembler of an all-filtered shift list returns the empty list. -/
theorem planAssemble_of_filter_nil (o c mn mx : Int) (shifts0 : List ShiftTemplate)
    (hf : shifts0.filter (planValidShift o c mn mx) = []) :
    planAssemble o c mn mx shifts0 = [] := by
  unfold planAssemble
  rw [hf]
  simp

/-- The assembler of a list with a surviving shift is nonempty. -/
theorem planAssemble_ne_nil (o c mn mx : Int) (shifts0 : List ShiftTemplate)
    (hf : shifts0.filter (planValidShift o c mn mx) ≠ []) :
    planAssemble o c mn mx shifts0 ≠ [] := by
  unfold planAssemble
  intro hcontra
  dsimp only at hcontra
  rw [List.append_assoc, List.append_eq_nil] at hcontra
  obtain ⟨-, hcontra⟩ := hcontra
  rw [List.append_eq_nil] at hcontra
  obtain ⟨h1, -⟩ := hcontra
  split at h1
  · exact hf (List.map_eq_nil_iff.mp h1)
  · exact hf h1

/-- A window shorter than the minimum shift length (with a valid draw)
makes the planner return an empty template list: every generated shift is
filtered out and no emergency shift is added. -/
theorem coverage_plan_eq_nil (fh : DayHours) (rest : List DayHours)
    (s1 s2 mn mx d : Int) (rmc : Bool)
    (h6 : 6 ≤ fh.close_time - fh.open_time) (hmm : mn ≤ mx)
    (hshort : fh.close_time - fh.open_time < mn) (hd1 : mn ≤ d) (hd2 : d ≤ mx) :
    _create_business_coverage_plan (fh :: rest) s1 s2 mn mx rmc d = some [] := by
  have hd0 : ¬ d = 0 := by omega
  unfold _create_business_coverage_plan
  dsimp only
  rw [dif_pos h6]
  rw [if_neg (by omega : ¬ mn > mx)]
  rw [if_neg hd0]
  obtain ⟨found, hfound, hspec⟩ : ∃ found,
      (if max 2 (Int.tdiv (fh.close_time - fh.open_time) d + 1) > 6 then
        planRetryFind (fh.close_time - fh.open_time) (intRange mn (mx + 1))
      else some none) = some found ∧
      (∀ q, found = some q → mn ≤ q.1 ∧ q.1 ≤ mx) := by
    split
    · obtain ⟨found, hf⟩ := planRetryFind_isSome (fh.close_time - fh.open_time)
        (intRange mn (mx + 1))
        (fun x hx => by have := (mem_intRange mn (mx + 1) x).mp hx; omega)
      refine ⟨found, hf, ?_⟩
      intro q hq
      rw [hq] at hf
      have hsp := planRetryFind_spec (fh.close_time - fh.open_time) _ q hf
      have hm := (mem_intRange mn (mx + 1) q.1).mp hsp.1
      exact ⟨by omega, by omega⟩
    · exact ⟨none, rfl, by intro q hq; simp at hq⟩
  rw [hfound]
  dsimp only
  have hopt : mn ≤ (found.map Prod.fst).getD d := by
    cases found with
    | none => simpa using hd1
    | some q => simpa using (hspec q rfl).1
  rw [planSeqManagerShifts_short _ _ _ _ hshort hmm]
  dsimp only
  refine congrArg some (planAssemble_of_filter_nil _ _ _ _ _ (filter_valid_nil _ _ _ _ _ ?_))
  intro t ht
  rcases List.mem_append.mp ht with h1 | h1
  · rcases List.mem_append.mp h1 with h2 | h2
    · rcases List.mem_append.mp h2 with h3 | h3
      · obtain ⟨i, -, hi⟩ := List.mem_filterMap.mp h3
        rw [planStaffShift_none_of_short _ _ _ _ _ _ i hopt hshort (by omega)] at hi
        exact absurd hi (by simp)
      · split at h3
        · exact planCoverageManagerShifts_short _ _ _ _ t h6 hshort hmm h3
        · exact absurd h3 (by simp)
    · rcases List.mem_singleton.mp h2 with rfl
      exact hshort
  · split at h1
    · rcases List.mem_singleton.mp h1 with rfl
      exact hshort
    · exact absurd h1 (by simp)

/-- Conversely, a planner run (on a valid draw) that returns the empty
template list can only happen when the window is shorter than the minimum
shift length; the window also measures at least six hours, or the call
would have raised instead of returning. -/
theorem coverage_plan_nil_inv (fh : DayHours) (rest : List DayHours)
    (s1 s2 mn mx d : Int) (rmc : Bool)
    (hd1 : mn ≤ d) (hd2 : d ≤ mx)
    (h : _create_business_coverage_plan (fh :: rest) s1 s2 mn mx rmc d = some []) :
    6 ≤ fh.close_time - fh.open_time ∧ fh.close_time - fh.open_time < mn := by
  unfold _create_business_coverage_plan at h
  dsimp only at h
  split at h
  · rename_i h6
    refine ⟨h6, ?_⟩
    by_contra hge
    push_neg at hge
    split at h
    · simp at h
    · split at h
      · simp at h
      · split at h
        · simp at h
        · rename_i found heqretry
          split at h
          · simp at h
          · rename_i seq heqseq
            have hassm := Option.some.inj h
            have hopt : mn ≤ (found.map Prod.fst).getD d ∧
                (found.map Prod.fst).getD d ≤ mx := by
              cases found with
              | none => simpa using ⟨hd1, hd2⟩
              | some q =>
                split at heqretry
                · have hsp := planRetryFind_spec (fh.close_time - fh.open_time) _ q heqretry
                  have hm := (mem_intRange mn (mx + 1) q.1).mp hsp.1
                  show mn ≤ q.1 ∧ q.1 ≤ mx
                  omega
                · exact absurd (Option.some.inj heqretry) (by simp)
            have hreq : 2 ≤ (found.map Prod.snd).getD
                (max 2 (Int.tdiv (fh.close_time - fh.open_time) d + 1)) := by
              cases found with
              | none => simp
              | some q =>
                split at heqretry
                · have hsp := planRetryFind_spec (fh.close_time - fh.open_time) _ q heqretry
                  show 2 ≤ q.2
                  rw [hsp.2]
                  omega
                · exact absurd (Option.some.inj heqretry) (by simp)
            obtain ⟨t, hts, htv⟩ := planStaffShift_zero_some fh.open_time fh.close_time
              mn mx ((found.map Prod.fst).getD d)
              ((found.map Prod.snd).getD
                (max 2 (Int.tdiv (fh.close_time - fh.open_time) d + 1)))
              h6 hge hopt.1 hopt.2 hreq
            have htstaff : t ∈ (List.range ((found.map Prod.snd).getD
                (max 2 (Int.tdiv (fh.close_time - fh.open_time) d + 1))).toNat).filterMap
                (planStaffShift fh.open_time fh.close_time mn mx
                  ((found.map Prod.fst).getD d)
                  ((found.map Prod.snd).getD
                    (max 2 (Int.tdiv (fh.close_time - fh.open_time) d + 1)))) :=
              List.mem_filterMap.mpr ⟨0, List.mem_range.mpr (by omega), hts⟩
            refine planAssemble_ne_nil _ _ _ _ _ ?_ hassm
            exact List.ne_nil_of_mem (List.mem_filter.mpr
              ⟨List.mem_append_left _ (List.mem_append_left _
                (List.mem_append_left _ htstaff)), htv⟩)
  · simp at h

/-- The list filled in for an empty `locations` / `departments` / `roles`
key is never empty. -/
theorem normFilledList_ne (x : Option (List String)) (v : String) :
    ((if (x.getD []).isEmpty then some [v] else x).getD []).isEmpty = false := by
  split
  · rfl
  · rename_i hx
    cases x with
    | none => simp at hx
    | some l => simpa using hx

/-- A document already in normal form is a fixed point of the normalizer:
its operating hours cover the week with at least seven entries, its
locations, departments and roles are nonempty, and its shift-template slot
either holds a nonempty list or regeneration provably yields nothing. -/
theorem ensure_defaults_fixed (x : ConstraintDoc) (d : Int) (oh3 : List DayHours)
    (hoh : x.operating_hours = some oh3)
    (hlen : 7 ≤ oh3.length)
    (hcov : ∀ day ∈ List.range 7,
      oh3.any (fun dh => dh.day_of_week = (day : Int)) = true)
    (hloc : ((x.locations).getD []).isEmpty = false)
    (hdep : ((x.departments).getD []).isEmpty = false)
    (hrole : ((x.roles).getD []).isEmpty = false)
    (htpl : ((x.shift_templates).getD []).isEmpty = false ∨
      _create_business_coverage_plan oh3 (x.min_staff.getD 1) (x.max_staff.getD 8)
        (x.min_consecutive_hours_per_shift.getD 4)
        (x.max_consecutive_hours_per_shift.getD 12)
        (x.require_manager_coverage.getD true) d = some []) :
    _ensure_constraint_defaults x d = some (x, x) := by
  have hne3 : oh3.isEmpty = false := by
    cases oh3 with
    | nil => simp at hlen
    | cons a t => rfl
  obtain ⟨ohf, stf, skf, locf, depf, rolf, f7, f8, f9, f10, f11, f12, f13, f14, f15,
    f16, f17⟩ := x
  dsimp only at hoh hloc hdep hrole htpl
  subst hoh
  unfold _ensure_constraint_defaults
  dsimp only
  simp only [Option.getD_some]
  rw [ensureOperatingHoursBlock1_eq_of_length oh3 hlen]
  rw [ensureOperatingHoursBlock2_idem oh3 hcov]
  by_cases hte : (stf.getD ([] : List ShiftTemplate)).isEmpty = true
  · rcases htpl with hne | hplan
    · rw [hne] at hte
      exact absurd hte (by simp)
    · rw [if_pos ⟨hte, by simp [hne3]⟩]
      rw [hplan]
      dsimp only
      rw [if_neg (by simp)]
      rw [if_neg (by simp [hloc])]
      rw [if_neg (by simp [hdep])]
      rw [if_neg (by simp [hrole])]
      rfl
  · rw [if_neg (by simp [hte])]
    rw [if_pos (by simpa using hte)]
    rw [if_neg (by simp [hloc])]
    rw [if_neg (by simp [hdep])]
    rw [if_neg (by simp [hrole])]
    rfl

/-- C8.  The normalizer is idempotent: whenever
`_ensure_constraint_defaults` returns, feeding its enhanced document back
in (with any valid duration draws for the two runs) returns the same
enhanced document unchanged — `normalize (normalize c) = normalize c`,
which is then also its own untouched "input after the call". -/
theorem C8_normalizer_idempotent (c : ConstraintDoc) (d1 d2 : Int)
    (e r : ConstraintDoc)
    (hd1a : c.min_consecutive_hours_per_shift.getD 4 ≤ d1)
    (hd1b : d1 ≤ c.max_consecutive_hours_per_shift.getD 12)
    (hd2a : c.min_consecutive_hours_per_shift.getD 4 ≤ d2)
    (hd2b : d2 ≤ c.max_consecutive_hours_per_shift.getD 12)
    (h : _ensure_constraint_defaults c d1 = some (e, r)) :
    _ensure_constraint_defaults e d2 = some (e, e) := by
  unfold _ensure_constraint_defaults at h
  dsimp only at h
  split at h
  · simp at h
  · rename_i tpl heqT
    have hpair := Option.some.inj h
    have he := congrArg Prod.fst hpair
    dsimp only at he
    subst he
    refine ensure_defaults_fixed _ d2
      (ensureOperatingHoursBlock2 (ensureOperatingHoursBlock1 (c.operating_hours.getD [])))
      rfl (ensureOperatingHoursBlock2_length _) (ensureOperatingHoursBlock2_covers _)
      (normFilledList_ne _ _) (normFilledList_ne _ _) (normFilledList_ne _ _) ?_
    dsimp only
    split at heqT
    · rename_i hc1
      split at heqT
      · simp at heqT
      · rename_i gen hplan1
        split at heqT
        · rename_i hgne
          have htv := Option.some.inj heqT
          subst htv
          left
          simpa using hgne
        · rename_i hge
          have htv := Option.some.inj heqT
          subst htv
          right
          have hgen : gen = [] := by simpa using hge
          subst hgen
          obtain ⟨fh, t1, hcons⟩ : ∃ fh t1,
              ensureOperatingHoursBlock1 (c.operating_hours.getD []) = fh :: t1 := by
            cases hx : ensureOperatingHoursBlock1 (c.operating_hours.getD []) with
            | nil => exact absurd hx (ensureOperatingHoursBlock1_ne_nil _)
            | cons a t => exact ⟨a, t, rfl⟩
          rw [hcons] at hplan1
          have hinv := coverage_plan_nil_inv fh t1 _ _ _ _ _ _ hd1a hd1b hplan1
          obtain ⟨t2, hoh3c⟩ : ∃ t2,
              ensureOperatingHoursBlock2 (ensureOperatingHoursBlock1
                (c.operating_hours.getD [])) = fh :: t2 := by
            rw [hcons]
            refine ⟨t1 ++ (((List.range 7).filter
                (fun (day : Nat) => ¬ (fh :: t1).any
                  (fun dh => dh.day_of_week = (day : Int)))).map
                (fun (day : Nat) => defaultClosedDay1 (day : Int))), ?_⟩
            unfold ensureOperatingHoursBlock2
            rw [if_neg (by simp)]
            rfl
          rw [hoh3c]
          exact coverage_plan_eq_nil fh t2 _ _ _ _ _ _ hinv.1 (by omega) hinv.2 hd2a hd2b
    · split at heqT
      · rename_i hc1 hc2
        have htv := Option.some.inj heqT
        subst htv
        left
        simpa using hc2
      · have htv := Option.some.inj heqT
        subst htv
        left
        rfl

/-- Witness for `C8_normalizer_idempotent` on the empty constraint
document with draw 4 for both runs. -/
theorem C8_normalizer_idempotent_witness :
    ({} : ConstraintDoc).min_consecutive_hours_per_shift.getD 4 ≤ 4 ∧
    (4 : Int) ≤ ({} : ConstraintDoc).max_consecutive_hours_per_shift.getD 12 ∧
    _ensure_constraint_defaults
      (((_ensure_constraint_defaults ({} : ConstraintDoc) 4).getD ({}, {})).fst) 4 =
      some ((((_ensure_constraint_defaults ({} : ConstraintDoc) 4).getD ({}, {})).fst),
            (((_ensure_constraint_defaults ({} : ConstraintDoc) 4).getD ({}, {})).fst)) :=
  ⟨by decide, by decide,
   C8_normalizer_idempotent {} 4 4
     (((_ensure_constraint_defaults ({} : ConstraintDoc) 4).getD ({}, {})).fst)
     (((_ensure_constraint_defaults ({} : ConstraintDoc) 4).getD ({}, {})).snd)
     (by decide) (by decide) (by decide) (by decide) (by decide)⟩

/-! ## Claim C7: normalizer purity -/

/-- C7 (amended).  The normalizer leaves its input untouched exactly when
the shared nested list cannot grow: the input either has no
`operating_hours` key, or its list already has at least seven entries and
covers all seven weekdays.  (Otherwise the two in-place blocks append to —
and block 1 sorts — the input's own list; see
`C7_normalizer_mutates_input_counterexample`.) -/
theorem C7_normalizer_input_framed (c : ConstraintDoc) (d : Int)
    (e r : ConstraintDoc)
    (h : _ensure_constraint_defaults c d = some (e, r))
    (hc : c.operating_hours = none ∨
      ∃ oh, c.operating_hours = some oh ∧ 7 ≤ oh.length ∧
        ∀ day ∈ List.range 7,
          oh.any (fun dh => dh.day_of_week = (day : Int)) = true) :
    r = c := by
  unfold _ensure_constraint_defaults at h
  dsimp only at h
  split at h
  · simp at h
  · rename_i tpl heqT
    have hpair := Option.some.inj h
    have hr := congrArg Prod.snd hpair
    dsimp only at hr
    rw [← hr]
    obtain ⟨ohf, stf, skf, locf, depf, rolf, f7, f8, f9, f10, f11, f12, f13, f14,
      f15, f16, f17⟩ := c
    rcases hc with hnone | ⟨oh, hsome, hlen, hcov⟩
    · dsimp only at hnone
      subst hnone
      rfl
    · dsimp only at hsome
      subst hsome
      dsimp only
      simp only [Option.getD_some, Option.map_some']
      rw [ensureOperatingHoursBlock1_eq_of_length oh hlen]
      rw [ensureOperatingHoursBlock2_idem oh hcov]

/-- C7 counterexample to the original claim: on a document whose
operating-hours list holds a single entry, the call returns with the
input's nested list grown to the full seven-day week — the input document
is no longer equal to its pre-call value. -/
theorem C7_normalizer_mutates_input_counterexample :
    (_ensure_constraint_defaults docOneDay 4).map
      (fun p => decide (p.snd = docOneDay)) = some false := by
  decide

/-- Witness for `C7_normalizer_input_framed` on a covering document. -/
theorem C7_normalizer_input_framed_witness :
    ((_ensure_constraint_defaults (docMonday921 2) 9).getD
        (docMonday921 2, docMonday921 2)).snd = docMonday921 2 :=
  C7_normalizer_input_framed (docMonday921 2) 9
    (((_ensure_constraint_defaults (docMonday921 2) 9).getD
        (docMonday921 2, docMonday921 2)).fst)
    (((_ensure_constraint_defaults (docMonday921 2) 9).getD
        (docMonday921 2, docMonday921 2)).snd)
    (by decide) (Or.inr ⟨_, rfl, by decide, by decide⟩)

/-! ## Claim C9: employee filter and short circuit -/

/-- C9.  The constraint-criteria filter never passes an inactive or an
anonymized employee, and whenever it leaves nobody, `generate_schedule`
returns the empty assignment list immediately — with the circuit breaker
untouched, since neither the optimizer nor the fallback ran. -/
theorem C9_filter_excludes_and_short_circuits (employees : List Employee)
    (constraints : ConstraintDoc) (start_date end_date : Int)
    (cb : CircuitBreaker) (now : Int) (ortoolsAvailable : Bool)
    (solve1 solve2 : Option (List Assignment)) (dNorm dFall : Int)
    (rng : List Nat) :
    (∀ emp ∈ _filter_employees_by_constraints employees constraints,
      emp.isActive = true ∧ emp.anonymized = false) ∧
    (_filter_employees_by_constraints employees constraints = [] →
      generate_schedule employees constraints start_date end_date cb now
        ortoolsAvailable solve1 solve2 dNorm dFall rng = (some [], cb)) := by
  constructor
  · intro emp hm
    unfold _filter_employees_by_constraints at hm
    dsimp only at hm
    have hp := (List.mem_filter.mp hm).2
    split at hp
    · exact absurd hp (by simp)
    · rename_i h1
      push_neg at h1
      exact ⟨h1.1, by simpa using h1.2⟩
  · intro hf
    unfold generate_schedule
    dsimp only
    rw [hf]
    rfl

/-- Witness for `C9_filter_excludes_and_short_circuits`: an inactive
employee is filtered out and the run short-circuits to zero assignments. -/
theorem C9_filter_excludes_and_short_circuits_witness :
    generate_schedule [{ empWorker with isActive := false }] docC5 0 0 {} 0
      true none none 4 4 [] = (some [], {}) :=
  (C9_filter_excludes_and_short_circuits [{ empWorker with isActive := false }]
    docC5 0 0 {} 0 true none none 4 4 []).2 (by decide)

/-! ## Claim C2: all-days-closed handling -/

/-- C2.  The conflict detector does report the critical
`no_operating_days` conflict for an all-closed week, but
`generate_schedule` does not always return an empty list: with all seven
days closed over 09:00–12:00 the normalizer keeps the provided templates,
the run reaches the heuristic fallback, and the fallback's own call into
the business coverage planner raises (`UnboundLocalError` via the dangling
`elif` at scheduler.py line 2673, reached because the span is under six
hours) — the exception propagates out of `generate_schedule` (`none`).
With a longer all-closed span (09:00–17:00) the same call instead returns
the empty list. -/
theorem C2_all_closed_raises :
    (generate_schedule [empWorker] docAllClosed912 0 0 {} 0 false none none
      4 4 []).1 = none ∧
    ((detect_scheduling_conflicts docAllClosed912 [empWorker] 0 0).conflicts.any
      (fun cf => decide (cf.ctype = "no_operating_days") &&
        decide (cf.severity = "critical"))) = true ∧
    (generate_schedule [empWorker] docAllClosed917 0 0 {} 0 false none none
      4 4 []).1 = some [] := by
  decide

/-! ## Claim C5: insufficient-staff detection and auto-resolution -/

/-- C5 (amended).  With Monday's `min_staff = 3` and two active matching
employees, the detector reports a critical `insufficient_staff` conflict
and re-running it after automatic resolution reports zero critical
conflicts — but the resolver sets the day's `min_staff` to `1`
(`max(1, available − 1)`), not to the available headcount `2` the original
claim states; see `C5_resolver_counterexample`. -/
theorem C5_insufficient_staff_resolution :
    ((detect_scheduling_conflicts docC5 empsC5 0 0).conflicts.any
      (fun cf => decide (cf.ctype = "insufficient_staff") &&
        decide (cf.severity = "critical"))) = true ∧
    ((((_resolve_scheduling_conflicts_automatically docC5 empsC5
          (detect_scheduling_conflicts docC5 empsC5 0 0).conflicts).operating_hours.getD
            []).find? (fun oh => decide (oh.day_of_week = 1))).map
      (fun oh => oh.min_staff)) = some 1 ∧
    (detect_scheduling_conflicts (_resolve_scheduling_conflicts_automatically docC5
        empsC5 (detect_scheduling_conflicts docC5 empsC5 0 0).conflicts) empsC5
      0 0).critical_count = 0 := by
  decide

/-- C5 counterexample to the original claim: the resolved Monday
`min_staff` is not `2`. -/
theorem C5_resolver_counterexample :
    ((((_resolve_scheduling_conflicts_automatically docC5 empsC5
          (detect_scheduling_conflicts docC5 empsC5 0 0).conflicts).operating_hours.getD
            []).find? (fun oh => decide (oh.day_of_week = 1))).map
      (fun oh => decide (oh.min_staff = 2))) = some false := by
  decide

/-! ## Claim C6: output ordering -/

/-- C6 (amended).  The two return paths that sort — the optimizer path and
the exception-handler fallback path — do produce lists that are
non-decreasing in the key the code actually sorts by,
`(date, startTime, endTime)` (the fourth component the code requests,
`employeeName`, is `""` on every record, so no tie is broken by employee).
The direct fallback returns of lines 1638/1644/1651 are unsorted, and ties
keep pool order rather than employee-identifier order; see
`C6_unsorted_fallback_counterexample`. -/
theorem C6_sorted_paths (solverResult : Option (List Assignment))
    (out1 : List Assignment) (filtered : List Employee)
    (enhanced : ConstraintDoc) (sd ed : Int) (cb : CircuitBreaker)
    (now dF : Int) (rng : List Nat) (out2 : List Assignment) :
    (_advanced_ortools_schedule solverResult = some out1 →
      out1.Pairwise (fun a b => scheduleSortKey a ≤ scheduleSortKey b)) ∧
    ((generateExceptPath filtered enhanced sd ed cb now dF rng).1 = some out2 →
      out2.Pairwise (fun a b => scheduleSortKey a ≤ scheduleSortKey b)) := by
  constructor
  · intro h
    unfold _advanced_ortools_schedule at h
    cases solverResult with
    | none => simp at h
    | some l =>
      simp only [Option.map_some'] at h
      have hout := Option.some.inj h
      subst hout
      exact sortByKey_sorted _ _
  · intro h
    unfold generateExceptPath at h
    dsimp only at h
    split at h
    · dsimp only at h
      have hout := Option.some.inj h
      exact hout ▸ List.Pairwise.nil
    · dsimp only at h
      have hout := Option.some.inj h
      subst hout
      exact sortByKey_sorted _ _

/-- C6 counterexample to the original claim: a direct fallback return
holds two assignments tying on (date, start time, end time) with employee
identifiers in the order "z", "a" — since "z" ≰ "a", the list is not
sorted by (date, start time, end time, employee identifier). -/
theorem C6_unsorted_fallback_counterexample :
    c6Run.map (fun l => l.map (fun a =>
      (a.date, a.startTime, a.endTime, a.employeeId))) =
      some [(0, 9, 18, "z"), (0, 9, 18, "a")] ∧
    ¬ (("z" : String) ≤ "a") := by
  constructor
  · decide
  · rw [not_le, String.lt_iff_toList_lt]
    decide

/-- Witness for `C6_sorted_paths` at concrete runs of both sorted paths. -/
theorem C6_sorted_paths_witness :
    ([({ employeeId := "a", date := 0, startTime := 9, endTime := 17,
         location := "L", role := "r", department := "D" } : Assignment),
      ({ employeeId := "b", date := 1, startTime := 9, endTime := 17,
         location := "L", role := "r", department := "D" } : Assignment)].Pairwise
      (fun a b => scheduleSortKey a ≤ scheduleSortKey b)) ∧
    (([] : List Assignment).Pairwise
      (fun a b => scheduleSortKey a ≤ scheduleSortKey b)) :=
  ⟨(C6_sorted_paths
      (some [({ employeeId := "b", date := 1, startTime := 9, endTime := 17,
                location := "L", role := "r", department := "D" } : Assignment),
             ({ employeeId := "a", date := 0, startTime := 9, endTime := 17,
                location := "L", role := "r", department := "D" } : Assignment)])
      [({ employeeId := "a", date := 0, startTime := 9, endTime := 17,
          location := "L", role := "r", department := "D" } : Assignment),
       ({ employeeId := "b", date := 1, startTime := 9, endTime := 17,
          location := "L", role := "r", department := "D" } : Assignment)]
      [] docC5 0 0 {} 0 4 [] []).1 (by decide),
   (C6_sorted_paths none [] [] docC5 0 0 {} 0 4 [] []).2 (by decide)⟩

/-! ## Claim C1: double booking — helper lemmas -/

theorem mem_headD {α : Type} (scan : List (List α)) (dflt : List α) (x : α)
    (hx : x ∈ (scan.head?).getD dflt) : x ∈ dflt ∨ ∃ l ∈ scan, x ∈ l := by
  cases scan with
  | nil => exact Or.inl (by simpa using hx)
  | cons l ls => exact Or.inr ⟨l, by simp, by simpa using hx⟩

theorem head?_mem {α : Type} (l : List α) (a : α) (h : l.head? = some a) :
    a ∈ l := by
  cases l with
  | nil => simp at h
  | cons x xs =>
    simp only [List.head?_cons, Option.some.injEq] at h
    rw [← h]
    exact List.mem_cons_self x xs

theorem mem_sortByKeyRev {α κ : Type} [LinearOrder κ] (key : α → κ) (l : List α)
    (a : α) : a ∈ sortByKeyRev key l ↔ a ∈ l :=
  (List.perm_insertionSort _ l).mem_iff

/-- Every role/skill candidate comes from the available pool. -/
theorem selectRoleCandidates_subset (sk : List SkillRequirement) (role : String)
    (available : List Employee) :
    ∀ x ∈ selectRoleCandidates sk role available, x ∈ available := by
  intro x hx
  unfold selectRoleCandidates at hx
  dsimp only at hx
  repeat' split at hx
  all_goals first
    | exact (List.mem_filter.mp hx).1
    | (rcases mem_headD _ _ x hx with h1 | ⟨l, hl, hxl⟩
       · exact (List.mem_filter.mp h1).1
       · obtain ⟨req, -, hreq⟩ := List.mem_filterMap.mp hl
         split at hreq
         · try dsimp only at hreq
           split at hreq
           · have hleq := Option.some.inj hreq
             subst hleq
             exact (List.mem_filter.mp hxl).1
           · exact absurd hreq (by simp)
         · exact absurd hreq (by simp))

/-- The final selection pool is drawn from the available pool. -/
theorem selectPool_subset (sk : List SkillRequirement) (tpl : ShiftTemplate)
    (date : Int) (sch : Nat) (available : List Employee) (st : LedgerState) :
    ∀ x ∈ (selectPool sk tpl date sch available st).1, x ∈ available := by
  intro x hx
  unfold selectPool at hx
  dsimp only at hx
  repeat' first
    | split at hx
    | dsimp only at hx
  all_goals first
    | exact hx
    | exact (List.mem_filter.mp hx).1
    | (rw [mem_sortByKey] at hx
       first
         | exact hx
         | exact selectRoleCandidates_subset _ _ _ x hx)
    | (have hx2 := (List.mem_filter.mp hx).1
       rw [mem_sortByKey] at hx2
       first
         | exact hx2
         | exact selectRoleCandidates_subset _ _ _ x hx2)

/-- The selected employee always comes from the available pool. -/
theorem selectAssignee_mem (sk : List SkillRequirement) (tpl : ShiftTemplate)
    (date : Int) (sch : Nat) (available : List Employee) (st : LedgerState)
    (emp : Employee) (role : String) (rng : List Nat)
    (h : selectAssignee sk tpl date sch available st = some (emp, role, rng)) :
    emp ∈ available := by
  unfold selectAssignee at h
  dsimp only at h
  repeat' split at h
  all_goals first
    | (rename_i emp' heq
       have hp := Option.some.inj h
       have hemp : emp' = emp := congrArg Prod.fst hp
       subst hemp
       first
         | (have hm := pickAt_mem _ _ _ heq
            simp only [List.mem_map] at hm
            obtain ⟨p, hptc, hsnd⟩ := hm
            have hpsort := List.mem_of_mem_take hptc
            rw [mem_sortByKey] at hpsort
            simp only [List.mem_map] at hpsort
            obtain ⟨e2, he2, hpe⟩ := hpsort
            have he : emp' = e2 := by rw [← hsnd, ← hpe]
            subst he
            repeat' split at he2
            all_goals first
              | exact selectPool_subset _ _ _ _ _ _ emp' he2
              | exact selectPool_subset _ _ _ _ _ _ emp'
                  (List.mem_filter.mp he2).1)
         | (have hm := head?_mem _ _ heq
            exact selectPool_subset _ _ _ _ _ _ emp' hm))
    | simp at h

/-- One assignment step appends exactly one entry, for a selected member
of the pool, dated on the current day, and removes that member from the
pool. -/
theorem assignStep_spec (c : ConstraintDoc) (tpl : ShiftTemplate) (date : Int)
    (sch : Nat) (available : List Employee) (st : LedgerState)
    (available' : List Employee) (st' : LedgerState)
    (h : assignStep c tpl date sch available st = some (available', st')) :
    ∃ emp entry, emp ∈ available ∧ available' = available.erase emp ∧
      st'.schedules = st.schedules ++ [entry] ∧
      entry.employeeId = emp._id ∧ entry.date = date := by
  unfold assignStep at h
  dsimp only at h
  split at h
  · simp at h
  · rename_i e r g heqsel
    repeat' split at h
    all_goals first
      | (have hp := Option.some.inj h
         have hA := congrArg Prod.fst hp
         have hS := congrArg Prod.snd hp
         dsimp only at hA hS
         subst hA
         subst hS
         exact ⟨e, _, selectAssignee_mem _ _ _ _ _ _ _ _ _ heqsel, rfl, rfl, rfl, rfl⟩)
      | simp at h

/-- The per-day assignment loop appends entries dated on the current day,
with pairwise-distinct employee identifiers drawn from the day pool. -/
theorem assignLoop_spec (c : ConstraintDoc) (tpls : List ShiftTemplate)
    (date : Int) : ∀ (k : Nat) (pool : List Employee) (sch : Nat)
    (st st' : LedgerState),
    (pool.map (fun e => e._id)).Nodup →
    assignLoop c tpls date k pool sch st = some st' →
    ∃ L, st'.schedules = st.schedules ++ L ∧
      (∀ a ∈ L, a.date = date) ∧
      ((L.map (fun a => a.employeeId)).Nodup) ∧
      (∀ a ∈ L, a.employeeId ∈ pool.map (fun e => e._id)) := by
  intro k
  induction k with
  | zero =>
    intro pool sch st st' hnd h
    rw [show assignLoop c tpls date 0 pool sch st = some st from rfl] at h
    exact ⟨[], by rw [← Option.some.inj h]; simp, by simp, by simp, by simp⟩
  | succ n ih =>
    intro pool sch st st' hnd h
    cases pool with
    | nil =>
      rw [show assignLoop c tpls date (n + 1) [] sch st = some st from rfl] at h
      exact ⟨[], by rw [← Option.some.inj h]; simp, by simp, by simp, by simp⟩
    | cons p ps =>
      rw [show assignLoop c tpls date (n + 1) (p :: ps) sch st =
        (match assignStep c (tpls.getD
            (sch % (if tpls.length = 0 then 1 else tpls.length))
            standardShiftTemplate) date sch (p :: ps) st with
         | none => none
         | some (a, s) => assignLoop c tpls date n a (sch + 1) s) from rfl] at h
      split at h
      · simp at h
      · rename_i pool2 st2 heqstep
        obtain ⟨emp, entry, hmem, hav, hsched, hid, hdate⟩ :=
          assignStep_spec _ _ _ _ _ _ _ _ heqstep
        subst hav
        have hnd' : (((p :: ps).erase emp).map (fun e => e._id)).Nodup :=
          hnd.sublist ((List.erase_sublist emp (p :: ps)).map (fun e => e._id))
        obtain ⟨L, hL1, hL2, hL3, hL4⟩ := ih _ (sch + 1) st2 st' hnd' h
        refine ⟨entry :: L, ?_, ?_, ?_, ?_⟩
        · rw [hL1, hsched, List.append_assoc]
          rfl
        · intro a ha
          rcases List.mem_cons.mp ha with rfl | haL
          · exact hdate
          · exact hL2 a haL
        · rw [List.map_cons, List.nodup_cons]
          refine ⟨?_, hL3⟩
          intro hin
          obtain ⟨a, haL, haid⟩ := List.mem_map.mp hin
          have h5 := hL4 a haL
          rw [haid, hid] at h5
          obtain ⟨v, hv, hvid⟩ := List.mem_map.mp h5
          have hvmem : v ∈ p :: ps := List.erase_subset _ _ hv
          have hveq : v = emp := List.inj_on_of_nodup_map hnd hvmem hmem hvid
          subst hveq
          have hplnd : (p :: ps).Nodup := List.Nodup.of_map _ hnd
          exact absurd rfl ((List.Nodup.mem_erase_iff hplnd).mp hv).1
        · intro a ha
          rcases List.mem_cons.mp ha with rfl | haL
          · rw [hid]
            exact List.mem_map.mpr ⟨emp, hmem, rfl⟩
          · obtain ⟨v, hv, hvid⟩ := List.mem_map.mp (hL4 a haL)
            exact List.mem_map.mpr ⟨v, List.erase_subset _ _ hv, hvid⟩

/-- The tail of the day-pool construction (the manager split and the
head-count top-up) keeps identifiers pairwise distinct when the roster
holds no managers. -/
theorem dayPoolTail_nodup (sortedAvail filtered : List Employee) (fms : Int)
    (key : Employee → Int ×ₗ (Int ×ₗ Int))
    (hnd : (sortedAvail.map (fun e => e._id)).Nodup)
    (hnomgr : ∀ e ∈ sortedAvail, isManagerRole e.role = false)
    (hsub : filtered.Sublist sortedAvail) :
    ((dayPoolTail sortedAvail filtered fms key).map (fun e => e._id)).Nodup := by
  unfold dayPoolTail
  dsimp only
  have hm0 : filtered.filter (fun emp => isManagerRole emp.role) = [] := by
    rw [List.filter_eq_nil]
    intro e he
    simp [hnomgr e (hsub.subset he)]
  have hallm : sortedAvail.filter (fun emp => isManagerRole emp.role) = [] := by
    rw [List.filter_eq_nil]
    intro e he
    simp [hnomgr e he]
  rw [hm0, hallm]
  simp only [List.isEmpty_nil, if_true, ite_self, List.nil_append]
  have hsort : sortByKey key ([] : List Employee) = [] := rfl
  rw [hsort]
  simp only [List.nil_append]
  have hosub : (filtered.filter (fun emp => ¬ isManagerRole emp.role)).Sublist
      sortedAvail := (List.filter_sublist _).trans hsub
  split
  · rw [List.map_append, List.nodup_append]
    refine ⟨hnd.sublist (hosub.map _), hnd.sublist
      (((List.take_sublist _ _).trans (List.filter_sublist _)).map _), ?_⟩
    intro idx hid1 hid2
    obtain ⟨u, hu, huid⟩ := List.mem_map.mp hid1
    obtain ⟨v, hv, hvid⟩ := List.mem_map.mp hid2
    have hv2 := (List.take_sublist _ _).subset hv
    have hvf := List.mem_filter.mp hv2
    have huS : u ∈ sortedAvail := hosub.subset hu
    have hvS : v ∈ sortedAvail := hvf.1
    have huv : u = v := List.inj_on_of_nodup_map hnd huS hvS (by rw [huid, hvid])
    subst huv
    have := hvf.2
    simp only [decide_eq_true_eq] at this
    exact this (List.elem_iff.mpr hu)
  · exact hnd.sublist (hosub.map _)

/-- The optimization-priority sort is a permutation in every branch. -/
theorem sortedAvailable_perm (c : ConstraintDoc) (st : LedgerState)
    (l : List Employee) : (sortedAvailable c st l).Perm l := by
  unfold sortedAvailable
  dsimp only
  split
  · exact sortByKey_perm _ _
  · split
    · exact sortByKey_perm _ _
    · split
      · exact List.perm_insertionSort _ _
      · exact sortByKey_perm _ _

/-- On a roster without managers and with pairwise-distinct ids, the
fallback day pool has pairwise-distinct employee identifiers. -/
theorem fallbackDayPool_nodup (employees : List Employee)
    (constraints : ConstraintDoc) (date : Int) (st : LedgerState)
    (hids : (employees.map (fun e => e._id)).Nodup)
    (hnomgr : ∀ e ∈ employees, isManagerRole e.role = false) :
    ((fallbackDayPool employees constraints date st).map (fun e => e._id)).Nodup := by
  have hA_nd : ((employees.filter (fun emp =>
      emp.isActive ∧ _check_employee_availability emp date "09:00" "17:00")).map
        (fun e => e._id)).Nodup :=
    hids.sublist ((List.filter_sublist _).map _)
  have hA_mgr : ∀ e ∈ employees.filter (fun emp =>
      emp.isActive ∧ _check_employee_availability emp date "09:00" "17:00"),
      isManagerRole e.role = false :=
    fun e he => hnomgr e ((List.filter_sublist _).subset he)
  have hS_perm := sortedAvailable_perm constraints st (employees.filter (fun emp =>
    emp.isActive ∧ _check_employee_availability emp date "09:00" "17:00"))
  have hS_nd : ((sortedAvailable constraints st (employees.filter (fun emp =>
      emp.isActive ∧ _check_employee_availability emp date "09:00" "17:00"))).map
        (fun e => e._id)).Nodup :=
    ((hS_perm.map (fun e : Employee => e._id)).nodup_iff).mpr hA_nd
  have hS_mgr : ∀ e ∈ sortedAvailable constraints st (employees.filter (fun emp =>
      emp.isActive ∧ _check_employee_availability emp date "09:00" "17:00")),
      isManagerRole e.role = false :=
    fun e he => hA_mgr e (hS_perm.subset he)
  unfold fallbackDayPool
  dsimp only
  refine dayPoolTail_nodup _ _ _ _ hS_nd hS_mgr ?_
  split
  · exact List.Sublist.refl _
  · exact List.filter_sublist _
/-- A completed fallback day appends entries dated on that day with
pairwise-distinct employee identifiers (no-manager roster). -/
theorem fallbackDay_spec (employees : List Employee)
    (constraints : ConstraintDoc) (tpls : List ShiftTemplate) (date : Int)
    (st : LedgerState) (tpls2 : List ShiftTemplate) (st' : LedgerState)
    (hids : (employees.map (fun e => e._id)).Nodup)
    (hnomgr : ∀ e ∈ employees, isManagerRole e.role = false)
    (h : fallbackDay employees constraints tpls date st =
      FbDayResult.ok tpls2 st') :
    ∃ L, st'.schedules = st.schedules ++ L ∧
      (∀ a ∈ L, a.date = date) ∧
      ((L.map (fun a => a.employeeId)).Nodup) := by
  unfold fallbackDay at h
  dsimp only at h
  repeat' split at h
  all_goals first
    | exact FbDayResult.noConfusion h
    | (injection h with h1 h2
       subst h2
       exact ⟨[], (List.append_nil _).symm,
         fun a ha => absurd ha (List.not_mem_nil a), List.nodup_nil⟩)
    | (rename_i st2 heqloop
       injection h with h1 h2
       subst h2
       obtain ⟨L, hL1, hL2, hL3, -⟩ := assignLoop_spec _ _ _ _ _ _ _ _
         (fallbackDayPool_nodup employees constraints date st hids hnomgr)
         heqloop
       exact ⟨L, hL1, hL2, hL3⟩)

/-- Across the day loop, entries of different days differ in date and
entries of one day differ in employee — so the ledger stays free of
double bookings (no-manager roster). -/
theorem fallbackLoop_spec (employees : List Employee)
    (constraints : ConstraintDoc)
    (hids : (employees.map (fun e => e._id)).Nodup)
    (hnomgr : ∀ e ∈ employees, isManagerRole e.role = false) :
    ∀ (days : Nat) (date : Int) (tpls : List ShiftTemplate)
      (st st' : LedgerState),
    (∀ a ∈ st.schedules, a.date < date) →
    st.schedules.Pairwise (fun a b =>
      a.employeeId ≠ b.employeeId ∨ a.date ≠ b.date) →
    fallbackLoop employees constraints days date tpls st = some (some st') →
    st'.schedules.Pairwise (fun a b =>
      a.employeeId ≠ b.employeeId ∨ a.date ≠ b.date) := by
  intro days
  induction days with
  | zero =>
    intro date tpls st st' hlt hpw h
    rw [show fallbackLoop employees constraints 0 date tpls st =
      some (some st) from rfl] at h
    obtain rfl : st = st' := Option.some.inj (Option.some.inj h)
    exact hpw
  | succ n ih =>
    intro date tpls st st' hlt hpw h
    rw [show fallbackLoop employees constraints (n + 1) date tpls st =
      (match fallbackDay employees constraints tpls date st with
       | FbDayResult.raised => none
       | FbDayResult.retEmpty => some none
       | FbDayResult.ok tpls2 st2 =>
         fallbackLoop employees constraints n (date + 1) tpls2 st2) from rfl] at h
    split at h
    · simp at h
    · simp at h
    · rename_i tpls2 st2 heqday
      obtain ⟨L, hL1, hL2, hL3⟩ :=
        fallbackDay_spec _ _ _ _ _ _ _ hids hnomgr heqday
      refine ih (date + 1) tpls2 st2 st' ?_ ?_ h
      · intro a ha
        rw [hL1] at ha
        rcases List.mem_append.mp ha with h1 | h1
        · have := hlt a h1
          omega
        · have := hL2 a h1
          omega
      · rw [hL1, List.pairwise_append]
        refine ⟨hpw, ?_, ?_⟩
        · have hln := hL3
          rw [List.Nodup, List.pairwise_map] at hln
          exact hln.imp (fun hne => Or.inl hne)
        · intro a ha b hb
          have h1 := hlt a ha
          have h2 := hL2 b hb
          exact Or.inr (by omega)

/-- C1 (amended).  On the heuristic fallback path, for a roster that
contains no manager-role employees and whose ids are pairwise distinct,
no employee receives two assignments on the same date: the misindented
`else` of scheduler.py line 263 (which floods the manager pool with a
copy of the whole day pool) is never reached, every selection comes from
the day pool and removes the selected employee from it, and different
days carry different dates.  For rosters with a manager the invariant
fails — see `C1_double_booking_counterexample`. -/
theorem C1_fallback_no_double_booking (employees : List Employee)
    (constraints : ConstraintDoc) (sd ed d : Int) (rng : List Nat)
    (out : List Assignment)
    (hids : (employees.map (fun e => e._id)).Nodup)
    (hnomgr : ∀ e ∈ employees, isManagerRole e.role = false)
    (h : _basic_random_schedule employees constraints sd ed d rng = some out) :
    out.Pairwise (fun a b =>
      a.employeeId ≠ b.employeeId ∨ a.date ≠ b.date) := by
  unfold _basic_random_schedule at h
  dsimp only at h
  split at h
  · have hout := Option.some.inj h
    exact hout ▸ List.Pairwise.nil
  · split at h
    · simp at h
    · rename_i tpls heqplan
      split at h
      · simp at h
      · have hout := Option.some.inj h
        exact hout ▸ List.Pairwise.nil
      · rename_i st heqloop
        have hout := Option.some.inj h
        subst hout
        exact fallbackLoop_spec employees constraints hids hnomgr _ _ _ _ _
          (fun a ha => absurd ha (List.not_mem_nil a)) List.Pairwise.nil heqloop

/-- C1 counterexample to the original claim: the mixed-roster fallback run
assigns employee "e1" twice on date 0 (09:00–18:00 and 20:00–21:00), so
the returned list is not double-booking free. -/
theorem C1_double_booking_counterexample :
    c1Run.map (fun l => decide (l.Pairwise (fun a b =>
      a.employeeId ≠ b.employeeId ∨ a.date ≠ b.date))) = some false := by
  decide

/-- Witness for `C1_fallback_no_double_booking` on a two-supervisor
roster. -/
theorem C1_fallback_no_double_booking_witness :
    ((_basic_random_schedule [empSup1, empSup2] (docMonday921 2)
        0 0 9 []).getD []).Pairwise
      (fun a b => a.employeeId ≠ b.employeeId ∨ a.date ≠ b.date) :=
  C1_fallback_no_double_booking [empSup1, empSup2] (docMonday921 2) 0 0 9 []
    ((_basic_random_schedule [empSup1, empSup2] (docMonday921 2) 0 0 9 []).getD [])
    (by decide) (by decide) (by decide)
